import Mathlib

/-!
Verification development for the news-disinformation-study repository.

The source file `src/WebScience/Measurements/AggregateStatistics.js` contains
two modules: the aggregate-statistics reducer (`StorageStatistics`,
`pageNavigationStats`, `linkExposureStats`, `socialMediaLinkSharingStats`,
`getDomain`, `getHostName`) and the social-media activity pipeline
(`handleGenericEvent`, `verifyNewRequest`, the per-platform verifiers,
extractors and the `platformHandlers` table, `findFieldFacebook`).

JavaScript values are embedded as the inductive `JSValue`; JS objects are
insertion-ordered association lists, matching JS property-enumeration order
for string keys.  Fallible JS operations (property access on null/undefined,
method calls on primitives, `JSON.parse` failures) return `Except Unit`,
with `.error ()` standing for a thrown exception.  Host APIs that the code
calls (`JSON.parse` / implicit String() coercion, `new URL`, `Date`) are
modelled for the value fragment the code exercises; each such model is
marked in its doc comment.
-/

/-- Embedding of JavaScript values.  `undef` is `undefined`, `null` is
`null`; objects are insertion-ordered field lists, as JS objects are for
string keys. -/
inductive JSValue where
  | null : JSValue
  | undef : JSValue
  | bool : Bool → JSValue
  | num : Int → JSValue
  | str : String → JSValue
  | arr : List JSValue → JSValue
  | obj : List (String × JSValue) → JSValue

mutual
/-- Structural equality test on embedded JS values (used for the strict
element comparison of `Array.prototype.includes`). -/
def jsBeq : JSValue → JSValue → Bool
  | .null, .null => true
  | .undef, .undef => true
  | .bool a, .bool b => a == b
  | .num a, .num b => a == b
  | .str a, .str b => a == b
  | .arr a, .arr b => jsBeqList a b
  | .obj a, .obj b => jsBeqFields a b
  | _, _ => false

/-- Elementwise `jsBeq` on lists. -/
def jsBeqList : List JSValue → List JSValue → Bool
  | [], [] => true
  | a :: as', b :: bs' => jsBeq a b && jsBeqList as' bs'
  | _, _ => false

/-- Fieldwise `jsBeq` on object field lists. -/
def jsBeqFields : List (String × JSValue) → List (String × JSValue) → Bool
  | [], [] => true
  | (k, v) :: as', (k', v') :: bs' => k == k' && jsBeq v v' && jsBeqFields as' bs'
  | _, _ => false
end

instance : BEq JSValue := ⟨jsBeq⟩

/-- JS truthiness: `null`, `undefined`, `false`, `0`, and the empty string
are falsy; every object and array is truthy. -/
def truthy : JSValue → Bool
  | .null => false
  | .undef => false
  | .bool b => b
  | .num n => n != 0
  | .str s => s != ""
  | .arr _ => true
  | .obj _ => true

/-- Association-list lookup used for JS object property reads. -/
def lookupA {K V : Type} [DecidableEq K] (k : K) : List (K × V) → Option V
  | [] => none
  | (k', v) :: rest => if k' = k then some v else lookupA k rest

/-- JS property read `v[f]`: throws (``.error``) on `null`/`undefined`
receivers, yields `undefined` for a missing property; `length` is supported
on strings and arrays (the only non-own property the code reads). -/
def getFieldE : JSValue → String → Except Unit JSValue
  | .null, _ => .error ()
  | .undef, _ => .error ()
  | .obj fs, f => .ok ((lookupA f fs).getD .undef)
  | .arr xs, f => .ok (if f = "length" then .num xs.length else .undef)
  | .str s, f => .ok (if f = "length" then .num s.length else .undef)
  | _, _ => .ok (.undef)

/-- JS indexed read `v[i]` for the numeric indices the code uses (arrays
only; other receivers give `undefined`, null/undefined throw). -/
def getIndexE : JSValue → Nat → Except Unit JSValue
  | .null, _ => .error ()
  | .undef, _ => .error ()
  | .arr xs, i => .ok (xs.getD i .undef)
  | _, _ => .ok (.undef)

/-- JS `f in v`: key presence on objects; throws on primitives and on
null/undefined (as the `in` operator does). -/
def hasFieldE : JSValue → String → Except Unit Bool
  | .obj fs, f => .ok ((lookupA f fs).isSome)
  | .arr _, f => .ok (f = "length")
  | _, _ => .error ()

/-- JS `typeof v == "object"` (true for objects, arrays and `null`). -/
def isObjectType : JSValue → Bool
  | .obj _ => true
  | .arr _ => true
  | .null => true
  | _ => false

/-- Key presence for the `fieldName in object` test inside
`findFieldFacebook` (receiver already known to be an object/array). -/
def hasKeyB : JSValue → String → Bool
  | .obj fs, f => (lookupA f fs).isSome
  | _, _ => false

/-- Own-property read used after a successful `hasKeyB` test. -/
def getOwn : JSValue → String → JSValue
  | .obj fs, f => (lookupA f fs).getD .undef
  | _, _ => .undef

mutual
/-- Modelled host behavior: the implicit `String()` coercion JS applies,
e.g. inside `JSON.parse` when handed a non-string. -/
def jsToString : JSValue → String
  | .null => "null"
  | .undef => "undefined"
  | .bool b => if b then "true" else "false"
  | .num n => toString n
  | .str s => s
  | .arr xs => arrToString xs
  | .obj _ => "[object Object]"

/-- `Array.prototype.toString`: elements joined by commas, with
null/undefined elements rendered as the empty string. -/
def arrToString : List JSValue → String
  | [] => ""
  | [JSValue.null] => ""
  | [JSValue.undef] => ""
  | [x] => jsToString x
  | JSValue.null :: xs => "," ++ arrToString xs
  | JSValue.undef :: xs => "," ++ arrToString xs
  | x :: xs => jsToString x ++ "," ++ arrToString xs
end

/-- Digits of a decimal literal, for JS string-to-number coercion. -/
def digitsToNat : List Char → Option Nat
  | [] => none
  | cs => if cs.all Char.isDigit then
      some (cs.foldl (fun a c => a * 10 + (c.toNat - 48)) 0)
    else none

/-- Whitespace for the trimming JS number coercion performs. -/
def wsChar (c : Char) : Bool :=
  c = ' ' || c = '\n' || c = '\t' || c = '\r'

/-- JS string-to-number coercion for the decimal strings in play
(`none` stands for `NaN`). -/
def strToNumber (s : String) : Option Int :=
  let t := ((s.data.dropWhile wsChar).reverse.dropWhile wsChar).reverse
  if t.isEmpty then some 0
  else match t with
    | '-' :: ds => (digitsToNat ds).map (fun n => -(n : Int))
    | ds => (digitsToNat ds).map (fun n => (n : Int))

/-- Modelled host behavior: JS `ToNumber` for the values the code
compares; `none` stands for `NaN`. -/
def jsToNumber : JSValue → Option Int
  | .null => some 0
  | .undef => none
  | .bool b => some (if b then 1 else 0)
  | .num n => some n
  | .str s => strToNumber s
  | .arr xs => strToNumber (arrToString xs)
  | .obj _ => none

/-- Modelled host behavior: JS loose equality `==` for the value shapes the
code compares (null/undefined tests, number/string comparisons, boolean
against string, array-to-primitive coercion via its `String()` form);
shapes the code never compares, such as two distinct arrays, fall to the
reference-inequality default `false`. -/
def jsLooseEq : JSValue → JSValue → Bool
  | .null, .null => true
  | .null, .undef => true
  | .undef, .null => true
  | .undef, .undef => true
  | .num a, .num b => a == b
  | .str a, .str b => a == b
  | .bool a, .bool b => a == b
  | .num a, .str s => strToNumber s == some a
  | .str s, .num b => strToNumber s == some b
  | .bool a, .num b => (if a then (1 : Int) else 0) == b
  | .num a, .bool b => a == (if b then (1 : Int) else 0)
  | .bool a, .str s => strToNumber s == some (if a then (1 : Int) else 0)
  | .str s, .bool b => strToNumber s == some (if b then (1 : Int) else 0)
  | .arr xs, .str s => arrToString xs == s
  | .str s, .arr xs => s == arrToString xs
  | .arr xs, .num b => jsToNumber (.arr xs) == some b
  | .num a, .arr xs => jsToNumber (.arr xs) == some a
  | _, _ => false

/-- Whitespace skipped by the JSON grammar. -/
def jsonWs (c : Char) : Bool :=
  c = ' ' || c = '\n' || c = '\t' || c = '\r'

/-- JSON string-literal body: consume characters up to the closing quote.
The model covers escape-free strings (the payloads the code parses);
a backslash or a missing close quote fails the parse. -/
def parseStrBody : List Char → Option (String × List Char)
  | [] => none
  | c :: rest =>
    if c = '"' then some ("", rest)
    else if c = '\\' then none
    else (parseStrBody rest).map (fun p => (String.mk (c :: p.1.data), p.2))

/-- Decimal digit run for the JSON number grammar. -/
def parseDigits (cs : List Char) : Option (Nat × List Char) :=
  let ds := cs.takeWhile Char.isDigit
  if ds.isEmpty then none
  else some (ds.foldl (fun a c => a * 10 + (c.toNat - 48)) 0, cs.drop ds.length)

mutual
/-- Modelled host API: `JSON.parse` value grammar (objects, arrays,
escape-free strings, integers, `true`/`false`/`null`), fuel-bounded. -/
def parseJsonVal : Nat → List Char → Option (JSValue × List Char)
  | 0, _ => none
  | Nat.succ fuel, cs =>
    let cs := cs.dropWhile jsonWs
    match cs with
    | '\x7b' :: rest => parseObjBody fuel (rest.dropWhile jsonWs) true
    | '[' :: rest => parseArrBody fuel (rest.dropWhile jsonWs) true
    | '"' :: rest => (parseStrBody rest).map (fun p => (.str p.1, p.2))
    | 't' :: 'r' :: 'u' :: 'e' :: r => some (.bool true, r)
    | 'f' :: 'a' :: 'l' :: 's' :: 'e' :: r => some (.bool false, r)
    | 'n' :: 'u' :: 'l' :: 'l' :: r => some (.null, r)
    | '-' :: r => (parseDigits r).map (fun p => (.num (-(p.1 : Int)), p.2))
    | c :: _ =>
      if c.isDigit then (parseDigits cs).map (fun p => (.num (p.1 : Int), p.2))
      else none
    | [] => none

/-- JSON object body after the opening brace (`first` marks the position
before the first member, where a closing brace is allowed). -/
def parseObjBody (fuel : Nat) (cs : List Char) (first : Bool) :
    Option (JSValue × List Char) :=
  match fuel, cs with
  | _, '\x7d' :: rest =>
    if first then some (.obj [], rest) else none
  | 0, _ => none
  | Nat.succ f, '"' :: rest =>
    match parseStrBody rest with
    | none => none
    | some (key, r1) =>
      match r1.dropWhile jsonWs with
      | ':' :: r2 =>
        match parseJsonVal f r2 with
        | none => none
        | some (v, r3) =>
          match r3.dropWhile jsonWs with
          | ',' :: r4 =>
            match parseObjBody f (r4.dropWhile jsonWs) false with
            | some (.obj fs, r5) => some (.obj ((key, v) :: fs), r5)
            | _ => none
          | '\x7d' :: r4 => some (.obj [(key, v)], r4)
          | _ => none
      | _ => none
  | _, _ => none

/-- JSON array body after the opening bracket. -/
def parseArrBody (fuel : Nat) (cs : List Char) (first : Bool) :
    Option (JSValue × List Char) :=
  match fuel, cs with
  | _, ']' :: rest =>
    if first then some (.arr [], rest) else none
  | 0, _ => none
  | Nat.succ f, cs =>
    match parseJsonVal f cs with
    | none => none
    | some (v, r1) =>
      match r1.dropWhile jsonWs with
      | ',' :: r2 =>
        match parseArrBody f (r2.dropWhile jsonWs) false with
        | some (.arr xs, r3) => some (.arr (v :: xs), r3)
        | _ => none
      | ']' :: r2 => some (.arr [v], r2)
      | _ => none
end

/-- Modelled host API: `JSON.parse` applied to an arbitrary JS value — the
argument is first coerced with `String()` (so a one-element array of a JSON
text parses as that text), then parsed; trailing garbage rejects. -/
def jsonParseJS (v : JSValue) : Except Unit JSValue :=
  let s := (jsToString v).data
  match parseJsonVal (s.length + 1) s with
  | some (j, rest) => if (rest.dropWhile jsonWs).isEmpty then .ok j else .error ()
  | none => .error ()

/-- Character-list prefix test for the substring search below. -/
def listStartsWith : List Char → List Char → Bool
  | _, [] => true
  | [], _ :: _ => false
  | c :: cs, d :: ds => c = d && listStartsWith cs ds

/-- Substring scan: does `sub` occur contiguously somewhere in the list? -/
def incScan (sub : List Char) : List Char → Bool
  | [] => sub.isEmpty
  | c :: rest => listStartsWith (c :: rest) sub || incScan sub rest

/-- String method `includes` (substring containment). -/
def strIncludes (s sub : String) : Bool := incScan sub.data s.data

/-- JS `v.includes(x)`: substring test on strings, strict element
membership on arrays (`Array.prototype.includes`); calling it on any other
receiver throws. -/
def jsIncludesE : JSValue → String → Except Unit Bool
  | .str s, sub => .ok (strIncludes s sub)
  | .arr xs, sub => .ok (xs.contains (.str sub))
  | _, _ => .error ()

/-- JS `v.endsWith(x)`: defined on strings, throws elsewhere. -/
def jsEndsWithE : JSValue → String → Except Unit Bool
  | .str s, suf => .ok (listStartsWith s.data.reverse suf.data.reverse)
  | _, _ => .error ()

/-- JS `v.startsWith(x)`: defined on strings, throws elsewhere. -/
def jsStartsWithE : JSValue → String → Except Unit Bool
  | .str s, pre => .ok (listStartsWith s.data pre.data)
  | _, _ => .error ()

/-- JS `v.toLowerCase()`: defined on strings, throws elsewhere. -/
def jsToLowerE : JSValue → Except Unit String
  | .str s => .ok (String.mk (s.data.map Char.toLower))
  | _ => .error ()

/-- JS comparison `v > 0` (false when the operand coerces to NaN). -/
def jsGTzero (v : JSValue) : Bool :=
  match jsToNumber v with
  | some n => 0 < n
  | none => false

/-- JS comparison `v >= 0` (false when the operand coerces to NaN). -/
def jsGEzero (v : JSValue) : Bool :=
  match jsToNumber v with
  | some n => 0 ≤ n
  | none => false

/-- Modelled host API: the fragment of WHATWG URL parsing the code relies
on through `new URL(url).hostname` — a letter-led scheme terminated by a
colon is required (otherwise the constructor throws, modelled as `none`);
an authority introduced by a double slash yields its lowercased host up to
the first delimiter, with an empty host rejected; URLs without an
authority have hostname "". -/
def urlHostname (url : String) : Option String :=
  match url.data with
  | [] => none
  | c :: rest =>
    if !c.isAlpha then none
    else
      match (c :: rest).dropWhile
          (fun ch => ch.isAlphanum || ch = '+' || ch = '-' || ch = '.') with
      | ':' :: r =>
        match r with
        | '/' :: '/' :: r2 =>
          let host := r2.takeWhile
            (fun ch => ch ≠ '/' && ch ≠ ':' && ch ≠ '?' && ch ≠ '#')
          if host.isEmpty then none
          else some (String.mk (host.map Char.toLower))
        | _ => some ""
      | _ => none

/-- Source `getDomain` (AggregateStatistics.js line 408): hostname of the
parsed URL, or the empty string when URL construction throws. -/
def getDomain (url : String) : String :=
  match urlHostname url with
  | some h => h
  | none => ""

/-- The host group of `getHostName`'s regular expression at a fixed
position: `.[^/:]+` — any character (the regex dot excludes newline)
followed by at least one character that is neither slash nor colon. -/
def hostCore : List Char → Option (List Char)
  | [] => none
  | c :: cs =>
    if c = '\n' then none
    else
      let t := cs.takeWhile (fun ch => ch ≠ '/' && ch ≠ ':')
      if t.isEmpty then none else some (c :: t)

/-- The optional group `(www[0-9]?\.)` of `getHostName`'s regular
expression, case-insensitively. -/
def stripWwwDot (cs : List Char) : Option (List Char) :=
  match cs with
  | w1 :: w2 :: w3 :: rest =>
    if w1.toLower = 'w' && w2.toLower = 'w' && w3.toLower = 'w' then
      match rest with
      | '.' :: r2 => some r2
      | d :: '.' :: r2 => if d.isDigit then some r2 else none
      | _ => none
    else none
  | _ => none

/-- Host match following a literal `://`: the optional `www` group is
tried first and backtracked when the host group then fails. -/
def hostMatchFrom (cs : List Char) : Option (List Char) :=
  match stripWwwDot cs with
  | some r =>
    match hostCore r with
    | some h => some h
    | none => hostCore cs
  | none => hostCore cs

/-- Left-to-right scan for the first full match of `getHostName`'s
regular expression. -/
def ghnScan : List Char → Option String
  | [] => none
  | c :: cs =>
    if c = ':' then
      match cs with
      | '/' :: '/' :: r =>
        match hostMatchFrom r with
        | some h => some (String.mk h)
        | none => ghnScan cs
      | _ => ghnScan cs
    else ghnScan cs

/-- Source `getHostName` (AggregateStatistics.js line 393): first match of
the pattern matching a literal `://`, an optional `www` group and a host
group, returning the host capture, else null (`none`).  A successful match
always has a nonempty host capture, so the source's extra guards on the
match object cannot fail. -/
def getHostName (url : String) : Option String := ghnScan url.data

/-- Split a character list at every occurrence of a separator. -/
def splitChar (sep : Char) : List Char → List (List Char)
  | [] => [[]]
  | c :: rest =>
    let tail := splitChar sep rest
    if c = sep then [] :: tail
    else match tail with
      | [] => [[c]]
      | t :: ts => (c :: t) :: ts

/-- Modelled host API: `URLSearchParams.get` over the query part of a URL
(text between the first question mark and any fragment, entries separated
by ampersands; the value is everything after the first equals sign). -/
def urlSearchParam (url : String) (key : String) : Option String :=
  match url.data.dropWhile (fun c => c ≠ '?') with
  | [] => none
  | _ :: qs =>
    let qs := qs.takeWhile (fun c => c ≠ '#')
    (splitChar '&' qs).findSome? (fun kv =>
      let k := kv.takeWhile (fun c => c ≠ '=')
      if String.mk k = key then
        some (String.mk ((kv.dropWhile (fun c => c ≠ '=')).drop 1))
      else none)

/-- The values enumerated by `for (const subObject in object)` followed by
the read `object[subObject]`: field values for objects, elements for
arrays. -/
def childValues : JSValue → List JSValue
  | .obj fs => fs.map Prod.snd
  | .arr xs => xs
  | _ => []

/-- Source `findFieldFacebook` (AggregateStatistics.js lines 1188-1226).
Resolution of `fieldName` inside a nested, possibly JSON-encoded payload:
at exhausted recursion depth or a null/undefined object the result is
null; a direct hit returns the field value after an attempted `JSON.parse`
of it (the source initialises `result` to the array head when `enterArray`
is set and the value is an array, but then unconditionally overwrites
`result` with the raw field value, so the array unwrap never takes
effect); otherwise the object itself is coerced and `JSON.parse`d and on
success the search recurses into the parsed value; otherwise every child
of an object or array is searched in order for the first non-null result.
Every recursive call decreases `recurseLevel`, exactly as in the source;
the bounded recursion is expressed through `Nat.rec`, with `prev` standing
for the search at the next-lower recursion level. -/
def findFieldFacebook (object : JSValue) (fieldName : String)
    (enterArray : Bool := true) (recurseLevel : Nat := 5) : JSValue :=
  Nat.rec (motive := fun _ => JSValue → JSValue)
    (fun _ => JSValue.null)
    (fun _ prev obj =>
      if jsLooseEq obj .null then .null
      else if isObjectType obj && hasKeyB obj fieldName then
        let result := getOwn obj fieldName
        match jsonParseJS result with
        | .ok parsed => parsed
        | .error _ => result
      else
        match jsonParseJS obj with
        | .ok parsed => prev parsed
        | .error _ =>
          if isObjectType obj then
            (childValues obj).foldl
              (fun acc c => if jsLooseEq acc .null then prev c else acc)
              .null
          else .null)
    recurseLevel object

/-- External collaborators of the pipeline: the Reddit thing fetch used by
`extractRedditCommentVote` (via `getRedditThingContents`) and the
content-script response used by `extractFacebookReshare` (via
`getReshareInfo`).  Both are opaque to the core. -/
structure PipelineEnv where
  redditThing : JSValue → JSValue
  reshareInfo : JSValue

/-- Source `verifyPostReq`: rejects a falsy request object.  The source's
method test compares the boolean `!requestDetails.method` loosely against
the string "POST", which is false for either boolean, so the test never
rejects — modelled faithfully. -/
def verifyPostReq (requestDetails : JSValue) : Except Unit JSValue := do
  if !truthy requestDetails then return JSValue.null
  let m ← getFieldE requestDetails "method"
  if jsLooseEq (.bool (!truthy m)) (.str "POST") then return JSValue.null
  return JSValue.obj []

/-- Source `verifyReadableFormData`: requires a truthy `requestBody` and a
truthy `requestBody.formData`. -/
def verifyReadableFormData (requestDetails : JSValue) : Except Unit JSValue := do
  let rb ← getFieldE requestDetails "requestBody"
  if !truthy rb then return JSValue.null
  let fd ← getFieldE rb "formData"
  if !truthy fd then return JSValue.null
  return JSValue.obj []

/-- Source `verifyNewRequest` (lines 675-682): rejects a falsy request id,
rejects an id already recorded in `processedRequestIds`, and otherwise
records the id (JS object keys are strings, so the id is coerced) and
accepts.  Recorded ids are only ever added. -/
def verifyNewRequest (requestDetails : JSValue) (processed : List String) :
    Except Unit (JSValue × List String) := do
  let rid ← getFieldE requestDetails "requestId"
  if !truthy rid then return (JSValue.null, processed)
  let key := jsToString rid
  if processed.contains key then return (JSValue.null, processed)
  return (JSValue.obj [], key :: processed)

/-- Source `verifyRedditPostVote`: requires form fields `id` and `dir`,
both with positive length, and an `id[0]` starting with the post marker
"t3_". -/
def verifyRedditPostVote (requestDetails : JSValue) : Except Unit JSValue := do
  let rb ← getFieldE requestDetails "requestBody"
  let fd ← getFieldE rb "formData"
  let cond ← (do
    let idv ← getFieldE fd "id"
    if !truthy idv then return false
    let l1 ← getFieldE idv "length"
    if !jsGTzero l1 then return false
    let dir ← getFieldE fd "dir"
    if !truthy dir then return false
    let l2 ← getFieldE dir "length"
    if !jsGTzero l2 then return false
    let id0 ← getIndexE idv 0
    jsStartsWithE id0 "t3_")
  if !cond then return JSValue.null
  return JSValue.obj []

/-- Source `verifyRedditCommentVote`: as `verifyRedditPostVote` but with
the comment marker "t1_". -/
def verifyRedditCommentVote (requestDetails : JSValue) : Except Unit JSValue := do
  let rb ← getFieldE requestDetails "requestBody"
  let fd ← getFieldE rb "formData"
  let cond ← (do
    let idv ← getFieldE fd "id"
    if !truthy idv then return false
    let l1 ← getFieldE idv "length"
    if !jsGTzero l1 then return false
    let dir ← getFieldE fd "dir"
    if !truthy dir then return false
    let l2 ← getFieldE dir "length"
    if !jsGTzero l2 then return false
    let id0 ← getIndexE idv 0
    jsStartsWithE id0 "t1_")
  if !cond then return JSValue.null
  return JSValue.obj []

/-- Source `verifyFacebookReact` (lines 1047-1056): requires a truthy
`formData.fb_api_req_friendly_name`, resolves the friendly name through
`findFieldFacebook` (on the whole request object), requires it to
`includes` one of the two react-mutation names, and accepts with the
resolved `variables` payload as the verification context. -/
def verifyFacebookReact (requestDetails : JSValue) : Except Unit JSValue := do
  let rb ← getFieldE requestDetails "requestBody"
  let fd ← getFieldE rb "formData"
  let fn ← getFieldE fd "fb_api_req_friendly_name"
  if !truthy fn then return JSValue.null
  let friendlyName := findFieldFacebook requestDetails "fb_api_req_friendly_name"
  let inc1 ← jsIncludesE friendlyName "UFI2FeedbackReactMutation"
  let inc2 ← jsIncludesE friendlyName "CometUFIFeedbackReactMutation"
  if !(inc1 || inc2) then return JSValue.null
  let reactionRequest := findFieldFacebook fd "variables"
  return JSValue.obj [("reactionRequest", reactionRequest)]

/-- Source `isThisPostAReshare`: a composer story creation whose
`composer_type` resolves loosely equal to "share". -/
def isThisPostAReshare (requestDetails : JSValue) : Except Unit Bool := do
  let rb ← getFieldE requestDetails "requestBody"
  let fd ← getFieldE rb "formData"
  let friendlyName := findFieldFacebook fd "fb_api_req_friendly_name"
  let inc ← jsIncludesE friendlyName "ComposerStoryCreateMutation"
  if inc then
    let composerType := findFieldFacebook fd "composer_type"
    if jsLooseEq composerType (.str "share") then return true
    return false
  return false

/-- Source `verifyFacebookReshare` (lines 1286-1330).  On the graphql
endpoint: requires the friendly-name field and accepts on the
feed-to-feed reshare mutation or a share-typed composer story.  On the old
endpoint: accepts with `sharedFromPostId`/`ownerId` context taken from the
form data when both fields are present with positive length, otherwise
from the URL's search parameters when any of the three is present. -/
def verifyFacebookReshare (requestDetails : JSValue) : Except Unit JSValue := do
  let url ← getFieldE requestDetails "url"
  let isGraphql ← jsIncludesE url "api/graphql"
  if isGraphql then
    let rb ← getFieldE requestDetails "requestBody"
    let fd ← getFieldE rb "formData"
    let fn ← getFieldE fd "fb_api_req_friendly_name"
    if !truthy fn then return JSValue.null
    let inc ← jsIncludesE fn "useCometFeedToFeedReshare_FeedToFeedMutation"
    if inc then return JSValue.obj []
    let isReshare ← isThisPostAReshare requestDetails
    if isReshare then return JSValue.obj []
    return JSValue.null
  else
    let rb ← getFieldE requestDetails "requestBody"
    let fd ← getFieldE rb "formData"
    let cond ← (do
      if !truthy fd then return false
      if !isObjectType fd then return false
      let h1 ← hasFieldE fd "shared_from_post_id"
      if !h1 then return false
      let sfp ← getFieldE fd "shared_from_post_id"
      let l1 ← getFieldE sfp "length"
      if !jsGTzero l1 then return false
      let h2 ← hasFieldE fd "sharer_id"
      if !h2 then return false
      let sid ← getFieldE fd "sharer_id"
      let l2 ← getFieldE sid "length"
      return jsGTzero l2)
    if cond then
      let sfp ← getFieldE fd "shared_from_post_id"
      let sharedFromPostId ← getIndexE sfp 0
      let sid ← getFieldE fd "sharer_id"
      let ownerId ← getIndexE sid 0
      return JSValue.obj [("sharedFromPostId", sharedFromPostId),
        ("ownerId", ownerId)]
    else
      let urlS := jsToString url
      if (urlHostname urlS).isNone then Except.error () else do
      let sharedFromPostId := match urlSearchParam urlS "shared_from_post_id" with
        | some v => JSValue.str v
        | none => JSValue.null
      let ownerId := match urlSearchParam urlS "owner_id" with
        | some v => JSValue.str v
        | none => JSValue.null
      let newPostMessage := match urlSearchParam urlS "message" with
        | some v => JSValue.str v
        | none => JSValue.null
      if truthy sharedFromPostId || truthy ownerId || truthy newPostMessage then
        return JSValue.obj [("sharedFromPostId", sharedFromPostId),
          ("ownerId", ownerId), ("newPostMessage", newPostMessage)]
      return JSValue.null

/-- Source `checkFacebookPostAudience` (lines 1149-1186): derives the
audience from the nested privacy base state, recognising "friends"/"self"
as restricted and "everyone" as public; a missing guard field yields
"unknown".  When the base-state lookup fails it yields null and the
`toLowerCase` call on it throws, exactly as in the source. -/
def checkFacebookPostAudience (requestDetails : JSValue) : Except Unit JSValue := do
  let guardOk ← (do
    if !truthy requestDetails then return false
    let rb ← getFieldE requestDetails "requestBody"
    if !truthy rb then return false
    let fd ← getFieldE rb "formData"
    let fn ← getFieldE fd "fb_api_req_friendly_name"
    return truthy fn)
  if !guardOk then return JSValue.str "unknown"
  let rb ← getFieldE requestDetails "requestBody"
  let fd ← getFieldE rb "formData"
  let vars := findFieldFacebook fd "variables"
  let friendlyName := findFieldFacebook fd "fb_api_req_friendly_name"
  let incPost ← jsIncludesE friendlyName "ComposerStoryCreateMutation"
  let base1 := if incPost then
      findFieldFacebook
        (findFieldFacebook (findFieldFacebook vars "audience") "privacy")
        "base_state"
    else JSValue.str "unknown"
  let incReshare ← jsIncludesE friendlyName "useCometFeedToFeedReshare_FeedToFeedMutation"
  let base2 := if incReshare then
      findFieldFacebook
        (findFieldFacebook (findFieldFacebook vars "audiences") "privacy")
        "base_state"
    else base1
  let lower ← jsToLowerE base2
  if lower = "friends" || lower = "self" then return JSValue.str "restricted"
  if lower = "everyone" then return JSValue.str "public"
  return JSValue.str "unknown"

/-- The argument object `handleGenericEvent` passes to each extractor
(the source extractors destructure the fields they use). -/
structure ExtractorArgs where
  requestDetails : JSValue
  details : JSValue
  verified : JSValue
  platform : String
  eventType : String
  blockingType : String
  eventTime : Int

/-- Source `extractFacebookReact` (lines 1001-1040): reads the verified
`reactionRequest`, resolves tracking ids and the `feedback_reaction`
value, and maps the reaction code to its name (2 is "love").  The
source's try/catch around the tracking lookups is unreachable here
because `findFieldFacebook` never throws. -/
def extractFacebookReact (a : ExtractorArgs) : Except Unit JSValue := do
  let reactionRequest ← getFieldE a.verified "reactionRequest"
  let tracking := findFieldFacebook reactionRequest "tracking"
  let postId := findFieldFacebook tracking "top_level_post_id"
  let groupId := findFieldFacebook tracking "group_id"
  let ownerId := findFieldFacebook tracking "content_owner_id_new"
  let reaction := findFieldFacebook reactionRequest "feedback_reaction"
  let reactionType : String :=
    if jsLooseEq reaction (.num 0) then "remove"
    else if jsLooseEq reaction (.num 1) then "like"
    else if jsLooseEq reaction (.num 2) then "love"
    else if jsLooseEq reaction (.num 16) then "care"
    else if jsLooseEq reaction (.num 4) then "haha"
    else if jsLooseEq reaction (.num 3) then "wow"
    else if jsLooseEq reaction (.num 7) then "sad"
    else if jsLooseEq reaction (.num 8) then "angry"
    else "unknown"
  return JSValue.obj [("eventType", .str "react"), ("eventTime", .num a.eventTime),
    ("postId", postId), ("groupId", groupId),
    ("ownerId", ownerId), ("reactionType", .str reactionType)]

/-- Source `extractRedditPostVote`: copies the vote direction and post id
out of the form data. -/
def extractRedditPostVote (a : ExtractorArgs) : Except Unit JSValue := do
  let rb ← getFieldE a.requestDetails "requestBody"
  let fd ← getFieldE rb "formData"
  let dir ← getFieldE fd "dir"
  let vote ← getIndexE dir 0
  let idv ← getFieldE fd "id"
  let postId ← getIndexE idv 0
  return JSValue.obj [("eventTime", .num a.eventTime),
    ("eventType", .str "postVote"), ("vote", vote), ("postId", postId)]

/-- Source `extractRedditCommentVote` (lines 1491-1505): copies the vote
direction and comment id, then hydrates the parent post id through the
Reddit thing fetch (`getRedditThingContents`, an external collaborator
supplied by `PipelineEnv`). -/
def extractRedditCommentVote (env : PipelineEnv) (a : ExtractorArgs) :
    Except Unit JSValue := do
  let rb ← getFieldE a.requestDetails "requestBody"
  let fd ← getFieldE rb "formData"
  let dir ← getFieldE fd "dir"
  let vote ← getIndexE dir 0
  let idv ← getFieldE fd "id"
  let commentId ← getIndexE idv 0
  let hydratedComment := env.redditThing commentId
  let d1 ← getFieldE hydratedComment "data"
  let children ← getFieldE d1 "children"
  let c0 ← getIndexE children 0
  let d2 ← getFieldE c0 "data"
  let linkId ← getFieldE d2 "link_id"
  return JSValue.obj [("eventTime", .num a.eventTime),
    ("eventType", .str "commentVote"), ("vote", vote),
    ("commentId", commentId), ("postId", linkId),
    ("commentContents", hydratedComment)]

/-- Source `extractFacebookReshare` (lines 1234-1258): on the graphql
endpoint builds the reshare event (message text, attached canonical url,
audience, reshare source from the content script); on any other endpoint
the function body falls through and returns undefined. -/
def extractFacebookReshare (env : PipelineEnv) (a : ExtractorArgs) :
    Except Unit JSValue := do
  let url ← getFieldE a.requestDetails "url"
  let isGraphql ← jsIncludesE url "api/graphql"
  if isGraphql then
    let rb ← getFieldE a.requestDetails "requestBody"
    let fd ← getFieldE rb "formData"
    let vars := findFieldFacebook fd "variables"
    let message := findFieldFacebook vars "message"
    let newPostMessage := if truthy message
      then findFieldFacebook message "text"
      else JSValue.str ""
    let attachments := findFieldFacebook vars "attachments"
    let link := findFieldFacebook attachments "link"
    let canonical := findFieldFacebook link "canonical"
    let attachedUrls := JSValue.arr [canonical]
    let audience ← checkFacebookPostAudience a.requestDetails
    let source := env.reshareInfo
    return JSValue.obj [("newPostMessage", newPostMessage),
      ("attachedUrls", attachedUrls), ("audience", audience),
      ("source", source), ("eventType", .str "reshare"),
      ("eventTime", .num a.eventTime)]
  else
    return JSValue.undef

/-- Names of the verifiers appearing in the handler-table entries
modelled here, in the source's naming. -/
inductive VName where
  | postReq : VName
  | readableFormData : VName
  | newRequest : VName
  | redditPostVote : VName
  | redditCommentVote : VName
  | facebookReact : VName
  | facebookReshare : VName
  deriving DecidableEq

/-- Dispatch of a verifier name to its source function, with the
deduplication state threaded through (only `verifyNewRequest` touches
it).  Each verifier receives only the raw request: the invocation in
`handleGenericEvent` passes no accumulated context. -/
def interpVerifier : VName → JSValue → List String →
    Except Unit (JSValue × List String)
  | .postReq, rd, st => (verifyPostReq rd).map (fun v => (v, st))
  | .readableFormData, rd, st => (verifyReadableFormData rd).map (fun v => (v, st))
  | .newRequest, rd, st => verifyNewRequest rd st
  | .redditPostVote, rd, st => (verifyRedditPostVote rd).map (fun v => (v, st))
  | .redditCommentVote, rd, st => (verifyRedditCommentVote rd).map (fun v => (v, st))
  | .facebookReact, rd, st => (verifyFacebookReact rd).map (fun v => (v, st))
  | .facebookReshare, rd, st => (verifyFacebookReshare rd).map (fun v => (v, st))

/-- A `platformHandlers` table entry: URL patterns, the ordered verifier
list, the ordered extractor list, and the number of completers. -/
structure Handler where
  urls : List String
  verifiers : List VName
  extractors : List (ExtractorArgs → Except Unit JSValue)
  completers : Nat

/-- The `clientCallbacks` entry for one (platform, eventType): the
blocking listeners (the pipeline invokes index 0) and the number of
registered nonblocking listeners (their return values are ignored). -/
structure Callbacks where
  blocking : List (JSValue → Except Unit JSValue)
  nonblocking : Nat

/-- One observable step of a pipeline execution. -/
inductive Step where
  | verifier : VName → Step
  | extractor : Nat → Step
  | blockingListener : Step
  | nonblockingListener : Nat → Step
  | completer : Nat → Step
  deriving DecidableEq

/-- Result of one `handleGenericEvent` call: an explicit `return v`, the
implicit undefined return after full completion, or a thrown exception. -/
inductive HGEResult where
  | ret : JSValue → HGEResult
  | retUndef : HGEResult
  | thrown : HGEResult

/-- Outcome of a verifier or extractor chain. -/
inductive ChainRes where
  | reject : ChainRes
  | thrown : ChainRes
  | ok : JSValue → ChainRes

/-- Result of the verifier loop: chain outcome, final deduplication
state, and the steps taken. -/
structure VOut where
  res : ChainRes
  st : List String
  tr : List Step

/-- The verifier loop of `handleGenericEvent` (lines 610-618): `verified`
starts as null, each verifier is invoked on the raw request and its result
overwrites `verified`; a falsy result stops the loop (the caller then
returns an empty object), and an accepted chain yields the last verifier's
result.  State mutations made before a later rejection persist. -/
def runVerifiers (rd : JSValue) : List VName → JSValue → List String → VOut
  | [], acc, st => ⟨.ok acc, st, []⟩
  | n :: ns, _acc, st =>
    match interpVerifier n rd st with
    | .error _ => ⟨.thrown, st, [.verifier n]⟩
    | .ok (v, st') =>
      if truthy v then
        let o := runVerifiers rd ns v st'
        ⟨o.res, o.st, .verifier n :: o.tr⟩
      else ⟨.reject, st', [.verifier n]⟩

/-- Result of the extractor loop: chain outcome and the steps taken. -/
structure EOut where
  res : ChainRes
  tr : List Step

/-- The extractor loop of `handleGenericEvent` (lines 622-630): `details`
starts as an empty object; each extractor receives the request, the
details so far and the verifier chain's final context, and its result
overwrites `details`; a falsy result stops the loop. -/
def runExtractors (rd : JSValue) (verified : JSValue) (platform eventType
    blockingType : String) (eventTime : Int) :
    List (ExtractorArgs → Except Unit JSValue) → JSValue → Nat → EOut
  | [], details, _ => ⟨.ok details, []⟩
  | f :: fs, details, i =>
    match f ⟨rd, details, verified, platform, eventType, blockingType, eventTime⟩ with
    | .error _ => ⟨.thrown, [.extractor i]⟩
    | .ok d' =>
      if truthy d' then
        let o := runExtractors rd verified platform eventType blockingType
          eventTime fs d' (i + 1)
        ⟨o.res, .extractor i :: o.tr⟩
      else ⟨.reject, [.extractor i]⟩

/-- The arguments of `handleGenericEvent` (the wrapped listener passes
the raw request and the static registration data). -/
structure HGEArgs where
  requestDetails : JSValue
  platform : String
  eventType : String
  blockingType : String
  eventTime : Int

/-- Result of one modelled `handleGenericEvent` call. -/
structure HGEOut where
  result : HGEResult
  state : List String
  trace : List Step

/-- Source `handleGenericEvent` (lines 605-645): run the verifiers (an
empty object is returned on the first falsy result), run the extractors
(likewise), then — when registered as blocking — invoke the first blocking
callback and return its decision if that decision is truthy and contains a
"cancel" property; otherwise invoke every nonblocking listener and then
every completer and return undefined.  An empty blocking-callback list
makes the indexed call throw.  The `facebookTabId` global update between
the two loops has no observable effect here and is not modelled. -/
def handleGenericEvent (h : Handler) (cbs : Callbacks) (args : HGEArgs)
    (st : List String) : HGEOut :=
  match runVerifiers args.requestDetails h.verifiers JSValue.null st with
  | ⟨.thrown, vst, vtr⟩ => ⟨.thrown, vst, vtr⟩
  | ⟨.reject, vst, vtr⟩ => ⟨.ret (.obj []), vst, vtr⟩
  | ⟨.ok verified, vst, vtr⟩ =>
    match runExtractors args.requestDetails verified args.platform
        args.eventType args.blockingType args.eventTime h.extractors (.obj []) 0 with
    | ⟨.thrown, etr⟩ => ⟨.thrown, vst, vtr ++ etr⟩
    | ⟨.reject, etr⟩ => ⟨.ret (.obj []), vst, vtr ++ etr⟩
    | ⟨.ok details, etr⟩ =>
      let tail :=
        (List.range cbs.nonblocking).map Step.nonblockingListener ++
        (List.range h.completers).map Step.completer
      if args.blockingType = "blocking" then
        match cbs.blocking.head? with
        | none => ⟨.thrown, vst, vtr ++ etr⟩
        | some cb =>
          match cb details with
          | .error _ => ⟨.thrown, vst, vtr ++ etr ++ [.blockingListener]⟩
          | .ok decision =>
            match (if truthy decision then hasFieldE decision "cancel"
                   else Except.ok false) with
            | .error _ => ⟨.thrown, vst, vtr ++ etr ++ [.blockingListener]⟩
            | .ok true => ⟨.ret decision, vst, vtr ++ etr ++ [.blockingListener]⟩
            | .ok false =>
              ⟨.retUndef, vst, vtr ++ etr ++ [.blockingListener] ++ tail⟩
      else
        ⟨.retUndef, vst, vtr ++ etr ++ tail⟩

/-- Whether a pipeline execution passes all verifiers and extractors, i.e.
reaches the listener-delivery stage of `handleGenericEvent`. -/
def pipelineAccepts (h : Handler) (args : HGEArgs) (st : List String) : Bool :=
  match (runVerifiers args.requestDetails h.verifiers JSValue.null st).res with
  | .ok verified =>
    match (runExtractors args.requestDetails verified args.platform
        args.eventType args.blockingType args.eventTime h.extractors (.obj []) 0).res with
    | .ok _ => true
    | _ => false
  | _ => false

/-- The string key under which `verifyNewRequest` records a request's id,
when the id is present and truthy. -/
def requestIdKey (requestDetails : JSValue) : Option String :=
  match getFieldE requestDetails "requestId" with
  | .error _ => none
  | .ok v => if truthy v then some (jsToString v) else none

/-- Source table entry `platformHandlers.reddit.postVote` (lines 810-818):
note that `verifyNewRequest` precedes `verifyRedditPostVote`. -/
def redditPostVoteHandler (_env : PipelineEnv) : Handler :=
  { urls := ["https://oauth.reddit.com/api/vote*"]
  , verifiers := [.postReq, .readableFormData, .newRequest, .redditPostVote]
  , extractors := [extractRedditPostVote]
  , completers := 0 }

/-- Source table entry `platformHandlers.reddit.commentVote` (lines
819-827): same URL pattern as `postVote`, and `verifyNewRequest` precedes
`verifyRedditCommentVote`. -/
def redditCommentVoteHandler (env : PipelineEnv) : Handler :=
  { urls := ["https://oauth.reddit.com/api/vote*"]
  , verifiers := [.postReq, .readableFormData, .newRequest, .redditCommentVote]
  , extractors := [extractRedditCommentVote env]
  , completers := 0 }

/-- Source table entry `platformHandlers.facebook.react` (lines 762-770). -/
def facebookReactHandler : Handler :=
  { urls := ["https://www.facebook.com/api/graphql/"]
  , verifiers := [.postReq, .readableFormData, .newRequest, .facebookReact]
  , extractors := [extractFacebookReact]
  , completers := 0 }

/-- Source table entry `platformHandlers.facebook.reshare` (lines
780-790): here `verifyFacebookReshare` (which produces a nonempty
context on the old endpoint) runs before `verifyNewRequest`. -/
def facebookReshareHandler (env : PipelineEnv) : Handler :=
  { urls := ["https://www.facebook.com/share/dialog/submit/*",
             "https://www.facebook.com/api/graphql/"]
  , verifiers := [.postReq, .readableFormData, .facebookReshare, .newRequest]
  , extractors := [extractFacebookReshare env]
  , completers := 0 }

/-- Insertion-ordered map write `m[k] = v`: replace in place or append —
the behavior of a JS object property write. -/
def setAssoc {K V : Type} [DecidableEq K] (k : K) (v : V) :
    List (K × V) → List (K × V)
  | [] => [(k, v)]
  | (k', v') :: rest =>
    if k' = k then (k, v) :: rest else (k', v') :: setAssoc k v rest

/-- Modelled from the spec: "VerificationContext: mapping produced by a
verifier, threaded to subsequent verifiers/extractors" and "verifier i+1
receives the context extensions produced by verifiers 1..i, and the
extractors receive the combined verification context of all verifiers" —
a verifier chain whose accepted context objects are unioned
(later fields overriding earlier ones) and whose combined mapping is what
an accepted chain yields.  This follows the spec's words, for comparison
with the source's `runVerifiers`. -/
def runVerifiersSpec (rd : JSValue) : List VName →
    List (String × JSValue) → List String → ChainRes × List String
  | [], acc, st => (.ok (.obj acc), st)
  | n :: ns, acc, st =>
    match interpVerifier n rd st with
    | .error _ => (.thrown, st)
    | .ok (v, st') =>
      if truthy v then
        let acc' := match v with
          | .obj fs => fs.foldl (fun m kv => setAssoc kv.1 kv.2 m) acc
          | _ => acc
        runVerifiersSpec rd ns acc' st'
      else (.reject, st')

/-- Modelled host API: `Date.prototype.getHours` of an epoch-millisecond
timestamp, with the local timezone taken as UTC. -/
def jsGetHours (t : Nat) : Nat := t / 3600000 % 24

/-- Modelled host API: `Date.prototype.getDay` (0 = Sunday); the epoch day
was a Thursday. -/
def jsGetDay (t : Nat) : Nat := (t / 86400000 + 4) % 7

/-- Insertion-ordered map update: apply `f` to the value at an existing
key in place, or append a fresh entry computed from `none` — the shape of
the lookup-then-write updates in the reducer folds. -/
def updAssoc {K V : Type} [DecidableEq K] (k : K) (f : Option V → V) :
    List (K × V) → List (K × V)
  | [] => [(k, f none)]
  | (k', v) :: rest =>
    if k' = k then (k', f (some v)) :: rest else (k', v) :: updAssoc k f rest

/-- A record in the page-navigation store.  The fold reads `type`, the
visit fields for "pageVisit" records and `numUntrackedVisits` in the other
branch; the model carries all fields on one structure. -/
structure PageNavRecord where
  type : String
  url : String
  referrer : String
  visitStart : Nat
  attentionDuration : Int
  laterShared : Bool
  prevExposed : Bool
  classification : String
  numUntrackedVisits : Int
  deriving DecidableEq

/-- The inner grouping key of the page-navigation fold.  The source
serialises these fields with `JSON.stringify` in a fixed key order and
parses them back in `gather`; that serialisation is injective on the
fields, so the key is modelled structurally. -/
structure VisitKey where
  referrerDomain : String
  dayOfWeek : Nat
  timeOfDay : Nat
  pageCategory : String
  deriving DecidableEq

/-- Per-group counters of the page-navigation fold. -/
structure VisitCounts where
  numVisits : Nat
  totalAttention : Int
  laterSharedCount : Nat
  prevExposedCount : Nat
  deriving DecidableEq

/-- Per-domain bucket (`stats.trackedVisitsByDomain[domainIndex]`). -/
structure DomainObj where
  visitsByReferrer : List (VisitKey × VisitCounts)
  deriving DecidableEq

/-- The page-navigation accumulator created by `setup`. -/
structure PageNavStats where
  trackedVisitsByDomain : List (String × DomainObj)
  numUntrackedVisits : Option Int
  deriving DecidableEq

/-- The key fields of one record (referrer domain, day of week, four-hour
time bucket, page classification), as computed in the fold. -/
def visitKey (navObj : PageNavRecord) : VisitKey :=
  { referrerDomain := getDomain navObj.referrer
  , dayOfWeek := jsGetDay navObj.visitStart
  , timeOfDay := jsGetHours navObj.visitStart / 4 * 4
  , pageCategory := navObj.classification }

/-- The fold step of `pageNavigationStats` (lines 127-168).  A "pageVisit"
record is bucketed under its visited domain and key, creating
zero-initialised buckets on first use; any other record falls into the
second branch — the source's condition `navObj.type = "untrackedVisitCount"`
is an assignment whose value is a truthy string, so the branch is taken for
every non-pageVisit record — and overwrites `numUntrackedVisits`. -/
def pageNavCompute (navObj : PageNavRecord) (stats : PageNavStats) : PageNavStats :=
  if navObj.type = "pageVisit" then
    let domain := getDomain navObj.url
    let k := visitKey navObj
    let upd := updAssoc domain (fun dOpt =>
      let dObj := dOpt.getD (DomainObj.mk [])
      DomainObj.mk (updAssoc k (fun cOpt =>
          match cOpt with
          | some c =>
            ⟨c.numVisits + 1, c.totalAttention + navObj.attentionDuration,
             c.laterSharedCount + (if navObj.laterShared then 1 else 0),
             c.prevExposedCount + (if navObj.prevExposed then 1 else 0)⟩
          | none =>
            ⟨1, navObj.attentionDuration,
             if navObj.laterShared then 1 else 0,
             if navObj.prevExposed then 1 else 0⟩)
        dObj.visitsByReferrer))
      stats.trackedVisitsByDomain
    { stats with trackedVisitsByDomain := upd }
  else
    { stats with numUntrackedVisits := some navObj.numUntrackedVisits }

/-- One flattened entry of `gather`'s inner array. -/
structure VisitEntry where
  referrerDomain : String
  dayOfWeek : Nat
  timeOfDay : Nat
  pageCategory : String
  numVisits : Nat
  totalAttention : Int
  prevExposedCount : Nat
  laterSharedCount : Nat
  deriving DecidableEq

/-- One flattened entry of `gather`'s outer array.  The source copies
`pair[1].numUntrackedVisits`, a field the per-domain object never has, so
the copied value is always undefined (`none`). -/
structure DomainEntry where
  domain : String
  numUntrackedVisits : Option Int
  trackedVisitsByReferrer : List VisitEntry
  deriving DecidableEq

/-- The flattened page-navigation aggregate. -/
structure PageNavResult where
  trackedVisitsByDomain : List DomainEntry
  numUntrackedVisits : Option Int
  deriving DecidableEq

/-- The `gather` phase of `pageNavigationStats` (lines 169-191). -/
def pageNavGather (r : PageNavStats) : PageNavResult :=
  { trackedVisitsByDomain := r.trackedVisitsByDomain.map (fun p =>
      { domain := p.1
      , numUntrackedVisits := none
      , trackedVisitsByReferrer := p.2.visitsByReferrer.map (fun q =>
          { referrerDomain := q.1.referrerDomain
          , dayOfWeek := q.1.dayOfWeek
          , timeOfDay := q.1.timeOfDay
          , pageCategory := q.1.pageCategory
          , numVisits := q.2.numVisits
          , totalAttention := q.2.totalAttention
          , prevExposedCount := q.2.prevExposedCount
          , laterSharedCount := q.2.laterSharedCount }) })
  , numUntrackedVisits := r.numUntrackedVisits }

/-- The accumulator produced by `setup` in `pageNavigationStats`. -/
def pageNavSetup : PageNavStats := ⟨[], none⟩

/-- The fold phase of `pageNavigationStats` over the stored records, in
storage iteration order. -/
def pageNavFold (storage : List PageNavRecord) : PageNavStats :=
  storage.foldl (fun s e => pageNavCompute e s) pageNavSetup

/-- Source `pageNavigationStats` (lines 119-195): setup, fold over every
stored record, then gather. -/
def pageNavigationStats (storage : List PageNavRecord) : PageNavResult :=
  pageNavGather (pageNavFold storage)

/-- The counts recorded for domain `d` and key `k` after a fold. -/
def lookupVisitCounts (stats : PageNavStats) (d : String) (k : VisitKey) :
    Option VisitCounts :=
  (lookupA d stats.trackedVisitsByDomain).bind
    (fun dObj => lookupA k dObj.visitsByReferrer)

/-- One declared untracked-count threshold entry of a link-exposure
summary record. -/
structure UntrackedThreshold where
  threshold : Int
  numUntracked : Int
  deriving DecidableEq

/-- A record in the link-exposure store. -/
structure LinkExposureRecord where
  type : String
  metadataLocation : String
  url : String
  firstSeen : Nat
  visThreshold : Int
  laterVisited : Bool
  untrackedCounts : List UntrackedThreshold
  deriving DecidableEq

/-- The grouping key of the link-exposure fold (serialised with
`JSON.stringify` in the source, modelled structurally). -/
structure ExposureKey where
  sourceDomain : String
  destinationDomain : String
  dayOfWeek : Nat
  visThreshold : Int
  deriving DecidableEq

/-- Per-group counters of the link-exposure fold. -/
structure ExposureCounts where
  numExposures : Nat
  laterVisitedCount : Nat
  deriving DecidableEq

/-- The link-exposure accumulator created by `setup`. -/
structure LinkExposureStats where
  untrackedLinkExposures : List (Int × Int)
  linkExposures : List (ExposureKey × ExposureCounts)
  deriving DecidableEq

/-- The grouping key computed for one "linkExposure" record: source
domain of the page, destination domain of the link, day of week, and
visibility threshold. -/
def exposureKey (e : LinkExposureRecord) : ExposureKey :=
  { sourceDomain := getDomain e.metadataLocation
  , destinationDomain := getDomain e.url
  , dayOfWeek := jsGetDay e.firstSeen
  , visThreshold := e.visThreshold }

/-- The fold step of `linkExposureStats` (lines 210-238).  In the
existing-bucket branch the source writes
`current.laterVisitedCount + exposureObj.laterVisited ? 1 : 0`, which JS
parses as `(current.laterVisitedCount + laterVisited) ? 1 : 0` — modelled
faithfully.  An untracked-summary record writes each declared threshold's
count into the untracked map, overwriting previous values. -/
def linkExposureCompute (e : LinkExposureRecord) (stats : LinkExposureStats) :
    LinkExposureStats :=
  if e.type = "linkExposure" then
    let k := exposureKey e
    let upd := updAssoc k (fun cur =>
        match cur with
        | none =>
          ExposureCounts.mk 1 (if e.laterVisited then 1 else 0)
        | some c =>
          ExposureCounts.mk (c.numExposures + 1)
            (if c.laterVisitedCount + (if e.laterVisited then 1 else 0) ≠ 0
             then 1 else 0))
      stats.linkExposures
    { stats with linkExposures := upd }
  else if e.type = "numUntrackedUrls" then
    let upd := e.untrackedCounts.foldl
      (fun m t => setAssoc t.threshold t.numUntracked m)
      stats.untrackedLinkExposures
    { stats with untrackedLinkExposures := upd }
  else stats

/-- The accumulator produced by `setup` in `linkExposureStats`. -/
def linkExposureSetup : LinkExposureStats := ⟨[], []⟩

/-- The fold phase of `linkExposureStats` over the stored records. -/
def linkExposureFold (storage : List LinkExposureRecord) : LinkExposureStats :=
  storage.foldl (fun s e => linkExposureCompute e s) linkExposureSetup

/-- A record in the social-media link-sharing store ("linkShare" records
carry the share fields; "numUntrackedShares" records carry the three
per-platform counters). -/
structure LinkShareRecord where
  type : String
  platform : String
  url : String
  prevVisitReferrers : Option (List String)
  classification : String
  audience : String
  source : String
  prevExposed : Bool
  facebook : Int
  twitter : Int
  reddit : Int
  deriving DecidableEq

/-- The grouping key of the link-sharing fold.  Its `domain` comes from
`getHostName`, which yields null (`none`) rather than a string when its
pattern does not match; `visitReferrer` is null when there is no previous
visit referrer. -/
structure ShareKey where
  domain : Option String
  classification : String
  audience : String
  source : String
  visitReferrer : Option String
  deriving DecidableEq

/-- Per-group counters of the link-sharing fold. -/
structure ShareCounts where
  trackedSharesCount : Nat
  prevExposedCount : Nat
  deriving DecidableEq

/-- One per-platform bucket of the link-sharing accumulator. -/
structure SharePlatformObj where
  trackedShares : List (ShareKey × ShareCounts)
  numUntrackedShares : Int
  deriving DecidableEq

/-- The link-sharing accumulator: `setup` pre-seeds the three platform
buckets (the platform index strings serialise only the platform name, so
they are modelled by it). -/
structure LinkShareStats where
  linkSharesByPlatform : List (String × SharePlatformObj)
  deriving DecidableEq

/-- The accumulator produced by `setup` in `socialMediaLinkSharingStats`
(lines 310-318): a fixed three-platform skeleton with empty tracked maps
and zero untracked counters. -/
def linkShareSetup : LinkShareStats :=
  ⟨[("facebook", ⟨[], 0⟩), ("twitter", ⟨[], 0⟩), ("reddit", ⟨[], 0⟩)]⟩

/-- Add `d` to the untracked counter of platform `p`; the platform entry
always exists (it is pre-seeded by `setup`), otherwise the JS property
read on `undefined` would throw. -/
def bumpUntracked (p : String) (d : Int) (m : List (String × SharePlatformObj)) :
    Except Unit (List (String × SharePlatformObj)) :=
  match lookupA p m with
  | some o => .ok (setAssoc p ⟨o.trackedShares, o.numUntrackedShares + d⟩ m)
  | none => .error ()

/-- The grouping key computed for one "linkShare" record. -/
def shareKey (v : LinkShareRecord) : ShareKey :=
  { domain := getHostName v.url
  , classification := v.classification
  , audience := v.audience
  , source := v.source
  , visitReferrer :=
      match v.prevVisitReferrers with
      | some (r :: _) => some (getDomain r)
      | _ => none }

/-- The fold step of `socialMediaLinkSharingStats` (lines 319-362).  An
untracked-summary record adds its three counters to the pre-seeded
platform buckets.  A "linkShare" record is bucketed under its platform and
share key; a record whose platform is none of the three looks up the empty
platform index, creating a fresh object without a `trackedShares` map, so
the following indexed read throws — modelled as `.error`. -/
def socialMediaLinkSharingCompute (v : LinkShareRecord)
    (stats : LinkShareStats) : Except Unit LinkShareStats := do
  let stats ←
    if v.type = "numUntrackedShares" then do
      let m1 ← bumpUntracked "facebook" v.facebook stats.linkSharesByPlatform
      let m2 ← bumpUntracked "twitter" v.twitter m1
      let m3 ← bumpUntracked "reddit" v.reddit m2
      pure (LinkShareStats.mk m3)
    else pure stats
  if v.type = "linkShare" then
    let platformIndex :=
      if v.platform = "facebook" then "facebook"
      else if v.platform = "twitter" then "twitter"
      else if v.platform = "reddit" then "reddit"
      else ""
    match lookupA platformIndex stats.linkSharesByPlatform with
    | none => Except.error ()
    | some platformObj =>
      let k := shareKey v
      let upd := updAssoc k (fun cur =>
          match cur with
          | some c =>
            ShareCounts.mk (c.trackedSharesCount + 1)
              (c.prevExposedCount + (if v.prevExposed then 1 else 0))
          | none =>
            ShareCounts.mk 1 (if v.prevExposed then 1 else 0))
        platformObj.trackedShares
      return LinkShareStats.mk (setAssoc platformIndex
        ⟨upd, platformObj.numUntrackedShares⟩ stats.linkSharesByPlatform)
  else
    return stats

/-- The fold phase of `socialMediaLinkSharingStats` over the stored
records (a throw aborts the whole statistics computation, as in JS). -/
def socialMediaLinkSharingFold (storage : List LinkShareRecord) :
    Except Unit LinkShareStats :=
  storage.foldlM (fun s v => socialMediaLinkSharingCompute v s) linkShareSetup

/-- A sample environment for the external collaborators: the Reddit thing
fetch returns a hydrated comment with a parent link id, and the
content-script reshare lookup returns a source marker. -/
def sampleEnv : PipelineEnv :=
  { redditThing := fun _ => .obj [("data", .obj [("children", .arr
      [.obj [("data", .obj [("link_id", .str "t3_parent")])]])])]
  , reshareInfo := .str "unknown" }

/-- An intercepted Reddit vote request whose form carries a comment id
("t1_" marker): it matches the shared vote URL pattern of both the
postVote and the commentVote handler. -/
def redditVoteReqT1 : JSValue := .obj [
  ("requestId", .str "1001"),
  ("url", .str "https://oauth.reddit.com/api/vote"),
  ("method", .str "POST"),
  ("tabId", .num 1),
  ("timeStamp", .num 5),
  ("requestBody", .obj [("formData", .obj [
    ("id", .arr [.str "t1_abc"]), ("dir", .arr [.str "1"])])])]

/-- The vote request as dispatched to the postVote handler. -/
def voteArgsPost : HGEArgs := ⟨redditVoteReqT1, "reddit", "postVote", "nonblocking", 5⟩

/-- The vote request as dispatched to the commentVote handler. -/
def voteArgsComment : HGEArgs := ⟨redditVoteReqT1, "reddit", "commentVote", "nonblocking", 5⟩

/-- No registered client callbacks. -/
def cbs0 : Callbacks := ⟨[], 0⟩

/-- An old-endpoint Facebook reshare request: the share dialog URL with
`shared_from_post_id` and `sharer_id` form fields. -/
def oldFbReshareReq : JSValue := .obj [
  ("requestId", .str "2002"),
  ("url", .str "https://www.facebook.com/share/dialog/submit/?x=1"),
  ("method", .str "POST"),
  ("requestBody", .obj [("formData", .obj [
    ("shared_from_post_id", .arr [.str "777"]),
    ("sharer_id", .arr [.str "42"])])])]

/-- The JSON text of a react mutation's `variables` payload around a given
`feedback_id`, as Facebook sends it. -/
def varsStr (fid : String) : String :=
  "\x7b\"input\":\x7b\"feedback_id\":\"" ++ fid ++
  "\",\"feedback_reaction\":2\x7d\x7d"

/-- The parsed form of `varsStr`. -/
def reactionPayload (fid : String) : JSValue :=
  .obj [("input", .obj [("feedback_id", .str fid), ("feedback_reaction", .num 2)])]

/-- An intercepted Facebook react request: friendly name exactly
"UFI2FeedbackReactMutation" and a `variables` payload whose
`feedback_reaction` is 2 (the "love" code). -/
def reactReqOf (fid : String) : JSValue := .obj [
  ("requestId", .str "3003"),
  ("url", .str "https://www.facebook.com/api/graphql/"),
  ("method", .str "POST"),
  ("tabId", .num 1),
  ("timeStamp", .num 9),
  ("requestBody", .obj [("formData", .obj [
    ("fb_api_req_friendly_name", .arr [.str "UFI2FeedbackReactMutation"]),
    ("variables", .arr [.str (varsStr fid)])])])]

/-- A react request whose friendly name strictly contains
"UFI2FeedbackReactMutation" as a substring without being equal to it. -/
def reactReqX : JSValue := .obj [
  ("requestId", .str "3004"),
  ("url", .str "https://www.facebook.com/api/graphql/"),
  ("method", .str "POST"),
  ("tabId", .num 1),
  ("timeStamp", .num 9),
  ("requestBody", .obj [("formData", .obj [
    ("fb_api_req_friendly_name", .arr [.str "XUFI2FeedbackReactMutationY"]),
    ("variables", .arr [.str (varsStr "fid")])])])]

/-- An untracked-visit-count summary record reporting 1 untracked visit. -/
def untrA : PageNavRecord := ⟨"untrackedVisitCount", "", "", 0, 0, false, false, "", 1⟩

/-- An untracked-visit-count summary record reporting 2 untracked visits. -/
def untrB : PageNavRecord := ⟨"untrackedVisitCount", "", "", 0, 0, false, false, "", 2⟩

/-- A page-visit record on example.com at hour 13 of epoch day 0. -/
def pvA : PageNavRecord :=
  ⟨"pageVisit", "https://example.com/a", "https://ref.example.org/",
   13 * 3600000, 250, false, true, "news", 0⟩

/-- A page-visit record on sample.net, same key fields otherwise. -/
def pvB : PageNavRecord :=
  ⟨"pageVisit", "https://sample.net/b", "https://ref.example.org/",
   13 * 3600000, 100, true, false, "news", 0⟩

/-- A tracked share of a malformed URL on Facebook. -/
def badShare : LinkShareRecord :=
  ⟨"linkShare", "facebook", "notaurl", none, "news", "unknown", "gesture",
   false, 0, 0, 0⟩

/-- Whether a blocking decision value "contains a cancellation" in the
sense of `handleGenericEvent`: truthy and the `in` test of its "cancel"
property yields true. -/
def hasCancelB (d : JSValue) : Bool :=
  truthy d && (match hasFieldE d "cancel" with
    | .ok b => b
    | .error _ => false)

/-- A page-visit record at epoch hour 0. -/
def pvHour0 : PageNavRecord :=
  ⟨"pageVisit", "https://example.com/a", "", 0, 10, false, false, "news", 0⟩

/-- A page-visit record at epoch hour 23. -/
def pvHour23 : PageNavRecord :=
  ⟨"pageVisit", "https://example.com/a", "", 23 * 3600000, 10, false, false, "news", 0⟩

/-- C9: the page-navigation fold assigns each record the time-of-day
bucket floor(hourOfDay / 4) * 4, so every bucket lies in
{0, 4, 8, 12, 16, 20}; hour 13 maps to bucket 12, hour 0 to bucket 0 and
hour 23 to bucket 20. -/
theorem c9_time_bucketing :
    (∀ r : PageNavRecord,
      (visitKey r).timeOfDay = jsGetHours r.visitStart / 4 * 4 ∧
      (visitKey r).timeOfDay ∈ [0, 4, 8, 12, 16, 20]) ∧
    jsGetHours pvA.visitStart = 13 ∧ (visitKey pvA).timeOfDay = 12 ∧
    jsGetHours pvHour0.visitStart = 0 ∧ (visitKey pvHour0).timeOfDay = 0 ∧
    jsGetHours pvHour23.visitStart = 23 ∧ (visitKey pvHour23).timeOfDay = 20 := by
  refine ⟨fun r => ⟨rfl, ?_⟩, rfl, rfl, rfl, rfl, rfl, rfl⟩
  have h24 : jsGetHours r.visitStart < 24 := Nat.mod_lt _ (by norm_num)
  have h6 : jsGetHours r.visitStart / 4 = 0 ∨ jsGetHours r.visitStart / 4 = 1 ∨
      jsGetHours r.visitStart / 4 = 2 ∨ jsGetHours r.visitStart / 4 = 3 ∨
      jsGetHours r.visitStart / 4 = 4 ∨ jsGetHours r.visitStart / 4 = 5 := by
    omega
  show jsGetHours r.visitStart / 4 * 4 ∈ _
  rcases h6 with h | h | h | h | h | h <;> rw [h] <;> simp

/-- C7: on the input whose field value is the array ["a", "b"], the lookup
returns the whole array rather than unwrapping its first element, and the
`enterArray` flag makes no difference — the conditional unwrap is dead
code because `result` is unconditionally overwritten; at recursion level 0
the lookup returns null for every input. -/
theorem c7_array_unwrap_dead :
    findFieldFacebook (.obj [("f", .arr [.str "a", .str "b"])]) "f" true 5 =
      .arr [.str "a", .str "b"] ∧
    findFieldFacebook (.obj [("f", .arr [.str "a", .str "b"])]) "f" true 5 ≠
      .str "a" ∧
    findFieldFacebook (.obj [("f", .arr [.str "a", .str "b"])]) "f" false 5 =
      findFieldFacebook (.obj [("f", .arr [.str "a", .str "b"])]) "f" true 5 ∧
    (∀ (o : JSValue) (f : String) (e : Bool),
      findFieldFacebook o f e 0 = JSValue.null) :=
  ⟨rfl, fun h => JSValue.noConfusion h, rfl, fun _ _ _ => rfl⟩

/-- C2: the two Reddit vote handlers share one URL pattern, yet in both
the deduplication verifier `verifyNewRequest` is listed before the
type-distinguishing verifier; consequently a comment-flavoured vote
request burns its request id in the postVote handler (which then rejects
it) and the commentVote handler, which accepts the same request from a
fresh state, drops it as a duplicate. -/
theorem c2_dedup_order_bug :
    (redditPostVoteHandler sampleEnv).urls = (redditCommentVoteHandler sampleEnv).urls ∧
    List.indexOf VName.newRequest (redditPostVoteHandler sampleEnv).verifiers <
      List.indexOf VName.redditPostVote (redditPostVoteHandler sampleEnv).verifiers ∧
    List.indexOf VName.newRequest (redditCommentVoteHandler sampleEnv).verifiers <
      List.indexOf VName.redditCommentVote (redditCommentVoteHandler sampleEnv).verifiers ∧
    pipelineAccepts (redditPostVoteHandler sampleEnv) voteArgsPost [] = false ∧
    (handleGenericEvent (redditPostVoteHandler sampleEnv) cbs0 voteArgsPost []).state =
      ["1001"] ∧
    pipelineAccepts (redditCommentVoteHandler sampleEnv) voteArgsComment
      (handleGenericEvent (redditPostVoteHandler sampleEnv) cbs0 voteArgsPost []).state =
      false ∧
    pipelineAccepts (redditCommentVoteHandler sampleEnv) voteArgsComment [] = true :=
  ⟨rfl, by decide, by decide, rfl, rfl, rfl, rfl⟩

/-- C1 (counterexample to "exactly one"): running the same comment-shaped
vote request twice through the postVote handler — whose verifier chain
includes `verifyNewRequest` — delivers zero events, not one: the first run
records the id and is then rejected by `verifyRedditPostVote`, and the
second run is dropped by the deduplication check. -/
theorem c1_exactly_one_fails :
    VName.newRequest ∈ (redditPostVoteHandler sampleEnv).verifiers ∧
    pipelineAccepts (redditPostVoteHandler sampleEnv) voteArgsPost [] = false ∧
    pipelineAccepts (redditPostVoteHandler sampleEnv) voteArgsPost
      (handleGenericEvent (redditPostVoteHandler sampleEnv) cbs0 voteArgsPost []).state =
      false ∧
    (handleGenericEvent (redditPostVoteHandler sampleEnv) cbs0 voteArgsPost []).state =
      ["1001"] :=
  ⟨by decide, rfl, rfl, rfl⟩

/-- C3 (counterexample): two untracked-count summary records in the two
possible orders are permutations of one record set, yet `computeStats`
returns different aggregates — the untracked-visit counter is
last-write-wins. -/
theorem c3_order_dependence :
    List.Perm [untrA, untrB] [untrB, untrA] ∧
    pageNavigationStats [untrA, untrB] ≠ pageNavigationStats [untrB, untrA] :=
  ⟨List.Perm.swap untrB untrA [],
   fun h => absurd (congrArg PageNavResult.numUntrackedVisits h) (by decide)⟩

/-- C6 (counterexample): in the link-sharing fold the share's own URL is
grouped by `getHostName`, so a malformed URL yields a null domain, not the
empty string — though the record is still counted, under the null-domain
group of its platform. -/
theorem c6_linksharing_null_domain :
    getHostName badShare.url = none ∧
    (shareKey badShare).domain = none ∧
    (shareKey badShare).domain ≠ some "" ∧
    socialMediaLinkSharingFold [badShare] = .ok ⟨[
      ("facebook", ⟨[(⟨none, "news", "unknown", "gesture", none⟩, ⟨1, 0⟩)], 0⟩),
      ("twitter", ⟨[], 0⟩), ("reddit", ⟨[], 0⟩)]⟩ :=
  ⟨rfl, rfl, fun h => Option.noConfusion h, rfl⟩

/-- A verifier invocation that keeps the state it was given. -/
theorem mapped_state_eq {e : Except Unit JSValue} {st st' : List String}
    {v : JSValue} (h : (e.map (fun v => (v, st))) = .ok (v, st')) : st' = st := by
  cases e with
  | error _ => simp [Except.map] at h
  | ok u => simp [Except.map] at h; exact h.2.symm

/-- What an accepting run of `verifyNewRequest` did: the request id was
present, truthy, and fresh, and it is now recorded at the head of the
state. -/
theorem verifyNewRequest_accept {rd : JSValue} {st st' : List String}
    {v : JSValue} (h : verifyNewRequest rd st = .ok (v, st'))
    (ht : truthy v = true) {k : String} (hk : requestIdKey rd = some k) :
    v = .obj [] ∧ st' = k :: st ∧ k ∉ st := by
  unfold requestIdKey at hk
  unfold verifyNewRequest at h
  cases hg : getFieldE rd "requestId" with
  | error e => simp [hg] at hk
  | ok rid =>
    simp only [hg] at hk h
    by_cases htr : truthy rid = true
    · simp only [htr, if_true] at hk
      have hkey : k = jsToString rid := by simpa using hk.symm
      by_cases hm : jsToString rid ∈ st
      · simp [htr, hm, Bind.bind, Except.bind, pure, Except.pure] at h
        rw [← h.1] at ht
        simp [truthy] at ht
      · simp [htr, hm, Bind.bind, Except.bind, pure, Except.pure] at h
        exact ⟨h.1.symm, by rw [hkey, ← h.2], by rw [hkey]; exact hm⟩
    · simp only [Bool.not_eq_true] at htr
      simp [htr] at hk

/-- A duplicate request id makes `verifyNewRequest` reject without
touching the state. -/
theorem verifyNewRequest_dup {rd : JSValue} {st : List String} {k : String}
    (hk : requestIdKey rd = some k) (hmem : k ∈ st) :
    verifyNewRequest rd st = .ok (JSValue.null, st) := by
  unfold requestIdKey at hk
  unfold verifyNewRequest
  cases hg : getFieldE rd "requestId" with
  | error e => simp [hg] at hk
  | ok rid =>
    simp only [hg] at hk
    by_cases htr : truthy rid = true
    · simp only [htr, if_true] at hk
      have hkey : k = jsToString rid := by simpa using hk.symm
      have hm : jsToString rid ∈ st := by rw [← hkey]; exact hmem
      simp [htr, hm, Bind.bind, Except.bind, pure, Except.pure]
    · simp only [Bool.not_eq_true] at htr
      simp [htr] at hk

/-- Every single verifier only extends the processed-id set. -/
theorem interpVerifier_mono {n : VName} {rd : JSValue} {st st' : List String}
    {v : JSValue} (h : interpVerifier n rd st = .ok (v, st')) :
    ∀ x ∈ st, x ∈ st' := by
  cases n <;> simp only [interpVerifier] at h
  case newRequest =>
    unfold verifyNewRequest at h
    cases hg : getFieldE rd "requestId" with
    | error e => rw [hg] at h; simp [Bind.bind, Except.bind] at h
    | ok rid =>
      rw [hg] at h
      by_cases htr : truthy rid = true
      · by_cases hm : jsToString rid ∈ st
        · simp [htr, hm, Bind.bind, Except.bind, pure, Except.pure] at h
          rw [← h.2]; exact fun x hx => hx
        · simp [htr, hm, Bind.bind, Except.bind, pure, Except.pure] at h
          rw [← h.2]; exact fun x hx => List.mem_cons_of_mem _ hx
      · simp only [Bool.not_eq_true] at htr
        simp [htr, Bind.bind, Except.bind, pure, Except.pure] at h
        rw [← h.2]; exact fun x hx => hx
  all_goals (rw [mapped_state_eq h]; exact fun x hx => hx)

/-- The whole verifier chain only extends the processed-id set —
recorded ids are never removed. -/
theorem runVerifiers_mono (rd : JSValue) :
    ∀ (ns : List VName) (acc : JSValue) (st : List String),
    ∀ x ∈ st, x ∈ (runVerifiers rd ns acc st).st := by
  intro ns
  induction ns with
  | nil => intro acc st x hx; exact hx
  | cons n ns ih =>
    intro acc st x hx
    simp only [runVerifiers]
    cases hi : interpVerifier n rd st with
    | error e => exact hx
    | ok p =>
      obtain ⟨v, st'⟩ := p
      have hx' : x ∈ st' := interpVerifier_mono hi x hx
      cases htr : truthy v with
      | true => simpa [htr] using ih v st' x hx'
      | false => simpa [htr] using hx'

/-- If a chain containing `verifyNewRequest` accepts, the request's id is
recorded in the final state. -/
theorem runVerifiers_newRequest_mem {rd : JSValue} {k : String}
    (hk : requestIdKey rd = some k) :
    ∀ (ns : List VName) (acc : JSValue) (st : List String) (v : JSValue),
    VName.newRequest ∈ ns → (runVerifiers rd ns acc st).res = .ok v →
    k ∈ (runVerifiers rd ns acc st).st := by
  intro ns
  induction ns with
  | nil => intro acc st v hmem; cases hmem
  | cons n ns ih =>
    intro acc st v hmem hok
    rcases hi : interpVerifier n rd st with e | ⟨v0, st'⟩
    · simp [runVerifiers, hi] at hok
    · cases htr : truthy v0 with
      | false => simp [runVerifiers, hi, htr] at hok
      | true =>
        simp only [runVerifiers, hi, htr, if_true] at hok ⊢
        rcases List.mem_cons.mp hmem with h1 | h2
        · subst h1
          have ha := verifyNewRequest_accept hi htr hk
          have hmm : k ∈ st' := by rw [ha.2.1]; exact List.mem_cons_self _ _
          exact runVerifiers_mono rd ns v0 st' k hmm
        · exact ih v0 st' v h2 hok

/-- If the request's id is already recorded, a chain containing
`verifyNewRequest` cannot accept. -/
theorem runVerifiers_dup_reject {rd : JSValue} {k : String}
    (hk : requestIdKey rd = some k) :
    ∀ (ns : List VName) (acc : JSValue) (st : List String),
    VName.newRequest ∈ ns → k ∈ st →
    ∀ v, (runVerifiers rd ns acc st).res ≠ .ok v := by
  intro ns
  induction ns with
  | nil => intro acc st hmem; cases hmem
  | cons n ns ih =>
    intro acc st hmem hin v hok
    rcases hi : interpVerifier n rd st with e | ⟨v0, st'⟩
    · simp [runVerifiers, hi] at hok
    · cases htr : truthy v0 with
      | false => simp [runVerifiers, hi, htr] at hok
      | true =>
        simp only [runVerifiers, hi, htr, if_true] at hok
        have hnotnew : n ≠ VName.newRequest := by
          intro hn
          subst hn
          simp only [interpVerifier] at hi
          rw [verifyNewRequest_dup hk hin] at hi
          have : v0 = JSValue.null := by
            have := (Except.ok.injEq _ _).mp hi.symm
            exact (Prod.mk.injEq _ _ _ _).mp this |>.1
          rw [this] at htr
          simp [truthy] at htr
        have h2 : VName.newRequest ∈ ns := by
          rcases List.mem_cons.mp hmem with h1 | h2
          · exact absurd h1.symm hnotnew
          · exact h2
        have hin' : k ∈ st' := interpVerifier_mono hi k hin
        exact ih v0 st' h2 hin' v hok

/-- The deduplication state `handleGenericEvent` leaves behind is the one
produced by its verifier loop. -/
theorem handleGenericEvent_state (h : Handler) (cbs : Callbacks)
    (args : HGEArgs) (st : List String) :
    (handleGenericEvent h cbs args st).state =
      (runVerifiers args.requestDetails h.verifiers JSValue.null st).st := by
  unfold handleGenericEvent
  repeat' split
  all_goals simp_all

/-- C1 (amended): a request id is consumed by at most one accepting
pipeline execution — if two `handleGenericEvent` runs carry the same
truthy request id and both handlers' verifier chains include
`verifyNewRequest`, then at most one of the two runs passes verification
and extraction (so at most one delivers an event to listeners) — and
processed-id entries are only ever added, never removed. -/
theorem c1_at_most_one_delivery
    (h1 h2 : Handler) (cbs1 : Callbacks) (args1 args2 : HGEArgs)
    (st0 : List String) (k : String)
    (m1 : VName.newRequest ∈ h1.verifiers) (m2 : VName.newRequest ∈ h2.verifiers)
    (r1 : requestIdKey args1.requestDetails = some k)
    (r2 : requestIdKey args2.requestDetails = some k) :
    (¬ (pipelineAccepts h1 args1 st0 = true ∧
        pipelineAccepts h2 args2
          (handleGenericEvent h1 cbs1 args1 st0).state = true)) ∧
    (∀ x ∈ st0, x ∈ (handleGenericEvent h1 cbs1 args1 st0).state) := by
  constructor
  · rintro ⟨ha1, ha2⟩
    have hok1 : ∃ v, (runVerifiers args1.requestDetails h1.verifiers
        JSValue.null st0).res = .ok v := by
      unfold pipelineAccepts at ha1
      rcases hr : (runVerifiers args1.requestDetails h1.verifiers
          JSValue.null st0).res with _ | _ | v
      · rw [hr] at ha1; cases ha1
      · rw [hr] at ha1; cases ha1
      · exact ⟨v, rfl⟩
    obtain ⟨v1, hv1⟩ := hok1
    have hkmem : k ∈ (runVerifiers args1.requestDetails h1.verifiers
        JSValue.null st0).st :=
      runVerifiers_newRequest_mem r1 h1.verifiers JSValue.null st0 v1 m1 hv1
    rw [← handleGenericEvent_state h1 cbs1 args1 st0] at hkmem
    have hok2 : ∃ v, (runVerifiers args2.requestDetails h2.verifiers
        JSValue.null ((handleGenericEvent h1 cbs1 args1 st0).state)).res = .ok v := by
      unfold pipelineAccepts at ha2
      rcases hr : (runVerifiers args2.requestDetails h2.verifiers
          JSValue.null ((handleGenericEvent h1 cbs1 args1 st0).state)).res with _ | _ | v
      · rw [hr] at ha2; cases ha2
      · rw [hr] at ha2; cases ha2
      · exact ⟨v, rfl⟩
    obtain ⟨v2, hv2⟩ := hok2
    exact runVerifiers_dup_reject r2 h2.verifiers JSValue.null
      ((handleGenericEvent h1 cbs1 args1 st0).state) m2 hkmem v2 hv2
  · intro x hx
    rw [handleGenericEvent_state h1 cbs1 args1 st0]
    exact runVerifiers_mono args1.requestDetails h1.verifiers JSValue.null st0 x hx

/-- C1 (witness): instantiating the at-most-one theorem at the Reddit
postVote handler and the concrete vote request. -/
theorem c1_at_most_one_delivery_witness :
    VName.newRequest ∈ (redditPostVoteHandler sampleEnv).verifiers ∧
    requestIdKey voteArgsPost.requestDetails = some "1001" ∧
    ¬ (pipelineAccepts (redditPostVoteHandler sampleEnv) voteArgsPost [] = true ∧
       pipelineAccepts (redditPostVoteHandler sampleEnv) voteArgsPost
         (handleGenericEvent (redditPostVoteHandler sampleEnv) cbs0
           voteArgsPost []).state = true) :=
  ⟨by decide, rfl,
   (c1_at_most_one_delivery (redditPostVoteHandler sampleEnv)
     (redditPostVoteHandler sampleEnv) cbs0 voteArgsPost voteArgsPost [] "1001"
     (by decide) (by decide) rfl rfl).1⟩

/-- C4 (counterexample): on the old-endpoint reshare request, the
reshare verifier (third in the chain) produces the context
`sharedFromPostId`/`ownerId`, but the source chain hands the extractors
only the last verifier's empty object, while the spec's accumulated
context would contain those fields — the two runners disagree. -/
theorem c4_context_not_accumulated :
    (runVerifiers oldFbReshareReq (facebookReshareHandler sampleEnv).verifiers
      JSValue.null []).res = .ok (.obj []) ∧
    verifyFacebookReshare oldFbReshareReq =
      .ok (.obj [("sharedFromPostId", .str "777"), ("ownerId", .str "42")]) ∧
    (runVerifiersSpec oldFbReshareReq (facebookReshareHandler sampleEnv).verifiers
      [] []).1 =
      .ok (.obj [("sharedFromPostId", .str "777"), ("ownerId", .str "42")]) ∧
    hasKeyB (JSValue.obj []) "sharedFromPostId" = false ∧
    hasKeyB (JSValue.obj [("sharedFromPostId", .str "777"), ("ownerId", .str "42")])
      "sharedFromPostId" = true :=
  ⟨rfl, rfl, rfl, rfl, rfl⟩

/-- C4 (amended): when a verifier chain accepts, the context
`handleGenericEvent` passes on to the extractors is exactly the value
returned by the chain's final verifier at some intermediate state —
earlier verifiers' context objects are overwritten, not accumulated, and
no verifier receives any context at all (`interpVerifier` is invoked on
the raw request alone). -/
theorem c4_last_verifier_context (rd : JSValue) (ns : List VName) (n : VName)
    (acc : JSValue) (st : List String) (v : JSValue)
    (hok : (runVerifiers rd (ns ++ [n]) acc st).res = .ok v) :
    ∃ st', interpVerifier n rd st' =
        .ok (v, (runVerifiers rd (ns ++ [n]) acc st).st) ∧ truthy v = true := by
  induction ns generalizing acc st with
  | nil =>
    rcases hi : interpVerifier n rd st with e | ⟨v0, st'⟩
    · simp [runVerifiers, hi] at hok
    · cases htr : truthy v0 with
      | false => simp [runVerifiers, hi, htr] at hok
      | true =>
        simp only [List.nil_append, runVerifiers, hi, htr, if_true] at hok ⊢
        have hv : v0 = v := by
          simpa [runVerifiers] using hok
        subst hv
        exact ⟨st, by simpa [runVerifiers] using hi, htr⟩
  | cons m ms ih =>
    rcases hi : interpVerifier m rd st with e | ⟨v0, st'⟩
    · simp [runVerifiers, hi] at hok
    · cases htr : truthy v0 with
      | false => simp [runVerifiers, hi, htr] at hok
      | true =>
        simp only [List.cons_append, runVerifiers, hi, htr, if_true] at hok ⊢
        exact ih v0 st' hok

/-- C4 (witness): at the react request, the chain's accepted context is
precisely the last verifier's output. -/
theorem c4_last_verifier_context_witness :
    (runVerifiers (reactReqOf "fid")
      ([VName.postReq, VName.readableFormData, VName.newRequest] ++
        [VName.facebookReact]) JSValue.null []).res =
      .ok (.obj [("reactionRequest", reactionPayload "fid")]) ∧
    ∃ st', interpVerifier VName.facebookReact (reactReqOf "fid") st' =
        .ok (.obj [("reactionRequest", reactionPayload "fid")],
          (runVerifiers (reactReqOf "fid")
            ([VName.postReq, VName.readableFormData, VName.newRequest] ++
              [VName.facebookReact]) JSValue.null []).st) ∧
      truthy (.obj [("reactionRequest", reactionPayload "fid")]) = true :=
  ⟨rfl, c4_last_verifier_context (reactReqOf "fid")
    [VName.postReq, VName.readableFormData, VName.newRequest]
    VName.facebookReact JSValue.null [] _ rfl⟩

/-- Every step recorded by the verifier loop is a verifier step. -/
theorem runVerifiers_trace_shape (rd : JSValue) :
    ∀ (ns : List VName) (acc : JSValue) (st : List String),
    ∀ s ∈ (runVerifiers rd ns acc st).tr, ∃ n, s = Step.verifier n := by
  intro ns
  induction ns with
  | nil => intro acc st s hs; cases hs
  | cons n ns ih =>
    intro acc st s hs
    rcases hi : interpVerifier n rd st with e | ⟨v0, st'⟩
    · simp [runVerifiers, hi] at hs
      exact ⟨n, hs⟩
    · cases htr : truthy v0 with
      | false =>
        simp [runVerifiers, hi, htr] at hs
        exact ⟨n, hs⟩
      | true =>
        simp only [runVerifiers, hi, htr, if_true] at hs
        rcases List.mem_cons.mp hs with h1 | h2
        · exact ⟨n, h1⟩
        · exact ih v0 st' s h2

/-- Every step recorded by the extractor loop is an extractor step. -/
theorem runExtractors_trace_shape (rd verified : JSValue)
    (platform eventType blockingType : String) (eventTime : Int) :
    ∀ (fs : List (ExtractorArgs → Except Unit JSValue)) (details : JSValue)
      (i : Nat),
    ∀ s ∈ (runExtractors rd verified platform eventType blockingType eventTime
      fs details i).tr, ∃ j, s = Step.extractor j := by
  intro fs
  induction fs with
  | nil => intro details i s hs; cases hs
  | cons f fs ih =>
    intro details i s hs
    rcases hf : f ⟨rd, details, verified, platform, eventType, blockingType,
        eventTime⟩ with e | d'
    · simp [runExtractors, hf] at hs
      exact ⟨i, hs⟩
    · cases htr : truthy d' with
      | false =>
        simp [runExtractors, hf, htr] at hs
        exact ⟨i, hs⟩
      | true =>
        simp only [runExtractors, hf, htr, if_true] at hs
        rcases List.mem_cons.mp hs with h1 | h2
        · exact ⟨i, h1⟩
        · exact ih d' (i + 1) s h2

/-- Listener and completer steps cannot occur among verifier steps,
extractor steps, or the blocking-listener step. -/
theorem no_late_steps_in_prefix {tv te : List Step}
    (hv : ∀ s ∈ tv, ∃ n, s = Step.verifier n)
    (he : ∀ s ∈ te, ∃ i, s = Step.extractor i) :
    (∀ i, Step.nonblockingListener i ∉ tv ++ te ++ [Step.blockingListener]) ∧
    (∀ i, Step.completer i ∉ tv ++ te ++ [Step.blockingListener]) := by
  constructor <;> intro i hmem <;>
  · rcases List.mem_append.mp hmem with hm | hm
    · rcases List.mem_append.mp hm with hm' | hm'
      · rcases hv _ hm' with ⟨n, hn⟩; exact Step.noConfusion hn
      · rcases he _ hm' with ⟨j, hj⟩; exact Step.noConfusion hj
    · rcases List.mem_singleton.mp hm with hj; exact Step.noConfusion hj

/-- C5: a pipeline execution's observable trace decomposes as verifier
steps, then extractor steps, then at most one blocking-listener step, then
nonblocking-listener steps, then completer steps — strictly in that order;
and whenever the returned value is a decision containing a cancellation,
no nonblocking listener and no completer step occurs in the trace. -/
theorem c5_stage_order_and_cancellation (h : Handler) (cbs : Callbacks)
    (args : HGEArgs) (st : List String) :
    (∃ tv te tb tn tc,
      (handleGenericEvent h cbs args st).trace = tv ++ te ++ tb ++ tn ++ tc ∧
      (∀ s ∈ tv, ∃ n, s = Step.verifier n) ∧
      (∀ s ∈ te, ∃ i, s = Step.extractor i) ∧
      (∀ s ∈ tb, s = Step.blockingListener) ∧
      (∀ s ∈ tn, ∃ i, s = Step.nonblockingListener i) ∧
      (∀ s ∈ tc, ∃ i, s = Step.completer i)) ∧
    (∀ d, (handleGenericEvent h cbs args st).result = .ret d →
      hasCancelB d = true →
      (∀ i, Step.nonblockingListener i ∉ (handleGenericEvent h cbs args st).trace) ∧
      (∀ i, Step.completer i ∉ (handleGenericEvent h cbs args st).trace)) := by
  have hvshape := runVerifiers_trace_shape args.requestDetails h.verifiers
    JSValue.null st
  rcases hv : runVerifiers args.requestDetails h.verifiers JSValue.null st with
    ⟨vres, vst, vtr⟩
  rw [hv] at hvshape
  cases vres with
  | thrown =>
    refine ⟨⟨vtr, [], [], [], [], ?_, hvshape, by simp, by simp, by simp, by simp⟩,
      fun d hd hc => ?_⟩
    · unfold handleGenericEvent; rw [hv]; simp
    · unfold handleGenericEvent at hd; rw [hv] at hd; simp at hd
  | reject =>
    refine ⟨⟨vtr, [], [], [], [], ?_, hvshape, by simp, by simp, by simp, by simp⟩,
      fun d hd hc => ?_⟩
    · unfold handleGenericEvent; rw [hv]; simp
    · unfold handleGenericEvent at hd; rw [hv] at hd; simp at hd
      rw [← hd] at hc
      exact absurd hc (by decide)
  | ok verified =>
    have heshape := runExtractors_trace_shape args.requestDetails verified
      args.platform args.eventType args.blockingType args.eventTime
      h.extractors (.obj []) 0
    rcases he : runExtractors args.requestDetails verified args.platform
        args.eventType args.blockingType args.eventTime h.extractors (.obj []) 0 with
      ⟨eres, etr⟩
    rw [he] at heshape
    cases eres with
    | thrown =>
      refine ⟨⟨vtr, etr, [], [], [], ?_, hvshape, heshape, by simp, by simp, by simp⟩,
        fun d hd hc => ?_⟩
      · unfold handleGenericEvent; rw [hv]; dsimp only; rw [he]; simp
      · unfold handleGenericEvent at hd; rw [hv] at hd; dsimp only at hd; rw [he] at hd; simp at hd
    | reject =>
      refine ⟨⟨vtr, etr, [], [], [], ?_, hvshape, heshape, by simp, by simp, by simp⟩,
        fun d hd hc => ?_⟩
      · unfold handleGenericEvent; rw [hv]; dsimp only; rw [he]; simp
      · unfold handleGenericEvent at hd; rw [hv] at hd; dsimp only at hd; rw [he] at hd; simp at hd
        rw [← hd] at hc
        exact absurd hc (by decide)
    | ok details =>
      by_cases hb : args.blockingType = "blocking"
      · rcases hh : cbs.blocking.head? with _ | cb
        · refine ⟨⟨vtr, etr, [], [], [], ?_, hvshape, heshape, by simp, by simp,
            by simp⟩, fun d hd hc => ?_⟩
          · unfold handleGenericEvent; rw [hv]; dsimp only; rw [he]; simp [hb, hh]
          · unfold handleGenericEvent at hd; rw [hv] at hd; dsimp only at hd; rw [he] at hd; simp [hb, hh] at hd
        · rcases hcb : cb details with e | decision
          · refine ⟨⟨vtr, etr, [Step.blockingListener], [], [], ?_, hvshape,
              heshape, by simp, by simp, by simp⟩, fun d hd hc => ?_⟩
            · unfold handleGenericEvent; rw [hv]; dsimp only; rw [he]; simp [hb, hh, hcb]
            · unfold handleGenericEvent at hd; rw [hv] at hd
              dsimp only at hd; rw [he] at hd; simp [hb, hh, hcb] at hd
          · rcases hcc : (if truthy decision then hasFieldE decision "cancel"
                else Except.ok false) with e | b
            · refine ⟨⟨vtr, etr, [Step.blockingListener], [], [], ?_, hvshape,
                heshape, by simp, by simp, by simp⟩, fun d hd hc => ?_⟩
              · unfold handleGenericEvent; rw [hv]; dsimp only; rw [he]; simp [hb, hh, hcb, hcc]
              · unfold handleGenericEvent at hd; rw [hv] at hd
                dsimp only at hd; rw [he] at hd; simp [hb, hh, hcb, hcc] at hd
            · cases b with
              | true =>
                refine ⟨⟨vtr, etr, [Step.blockingListener], [], [], ?_, hvshape,
                  heshape, by simp, by simp, by simp⟩, fun d hd hc => ?_⟩
                · unfold handleGenericEvent; rw [hv]; dsimp only; rw [he]; simp [hb, hh, hcb, hcc]
                · have htr : (handleGenericEvent h cbs args st).trace =
                      vtr ++ etr ++ [Step.blockingListener] := by
                    unfold handleGenericEvent; rw [hv]; dsimp only; rw [he]; simp [hb, hh, hcb, hcc]
                  rw [htr]
                  exact no_late_steps_in_prefix hvshape heshape
              | false =>
                refine ⟨⟨vtr, etr, [Step.blockingListener],
                  (List.range cbs.nonblocking).map Step.nonblockingListener,
                  (List.range h.completers).map Step.completer, ?_, hvshape,
                  heshape, by simp, ?_, ?_⟩, fun d hd hc => ?_⟩
                · unfold handleGenericEvent; rw [hv]; dsimp only; rw [he]; simp [hb, hh, hcb, hcc]
                · intro s hs
                  rcases List.mem_map.mp hs with ⟨i, _, rfl⟩
                  exact ⟨i, rfl⟩
                · intro s hs
                  rcases List.mem_map.mp hs with ⟨i, _, rfl⟩
                  exact ⟨i, rfl⟩
                · unfold handleGenericEvent at hd; rw [hv] at hd
                  dsimp only at hd; rw [he] at hd; simp [hb, hh, hcb, hcc] at hd
      · refine ⟨⟨vtr, etr, [],
          (List.range cbs.nonblocking).map Step.nonblockingListener,
          (List.range h.completers).map Step.completer, ?_, hvshape, heshape,
          by simp, ?_, ?_⟩, fun d hd hc => ?_⟩
        · unfold handleGenericEvent; rw [hv]; dsimp only; rw [he]; simp [hb]
        · intro s hs
          rcases List.mem_map.mp hs with ⟨i, _, rfl⟩
          exact ⟨i, rfl⟩
        · intro s hs
          rcases List.mem_map.mp hs with ⟨i, _, rfl⟩
          exact ⟨i, rfl⟩
        · unfold handleGenericEvent at hd; rw [hv] at hd; dsimp only at hd; rw [he] at hd; simp [hb] at hd

/-- A trivial handler with no verifiers or extractors. -/
def hBlock : Handler := ⟨[], [], [], 0⟩

/-- A blocking listener that cancels every event, plus two nonblocking
listeners. -/
def cbsBlock : Callbacks := ⟨[fun _ => .ok (.obj [("cancel", .bool true)])], 2⟩

/-- A request dispatched with a blocking registration. -/
def argsBlock : HGEArgs := ⟨.obj [], "x", "y", "blocking", 0⟩

/-- C5 (witness): at a concrete cancelling blocking listener, the pipeline
returns the decision and fires neither nonblocking listeners nor
completers. -/
theorem c5_stage_order_and_cancellation_witness :
    (handleGenericEvent hBlock cbsBlock argsBlock []).result =
      .ret (.obj [("cancel", .bool true)]) ∧
    hasCancelB (.obj [("cancel", .bool true)]) = true ∧
    Step.nonblockingListener 0 ∉
      (handleGenericEvent hBlock cbsBlock argsBlock []).trace ∧
    Step.completer 0 ∉ (handleGenericEvent hBlock cbsBlock argsBlock []).trace :=
  ⟨rfl, rfl,
   ((c5_stage_order_and_cancellation hBlock cbsBlock argsBlock []).2
     (.obj [("cancel", .bool true)]) rfl rfl).1 0,
   ((c5_stage_order_and_cancellation hBlock cbsBlock argsBlock []).2
     (.obj [("cancel", .bool true)]) rfl rfl).2 0⟩

/-- Whether the verifier loop of a run rejects (a verifier returned a
falsy result). -/
def verifierStageRejects (h : Handler) (args : HGEArgs) (st : List String) : Bool :=
  match (runVerifiers args.requestDetails h.verifiers JSValue.null st).res with
  | .reject => true
  | _ => false

/-- Whether the extractor loop of a run rejects (all verifiers passed but
an extractor returned a falsy result). -/
def extractorStageRejects (h : Handler) (args : HGEArgs) (st : List String) : Bool :=
  match (runVerifiers args.requestDetails h.verifiers JSValue.null st).res with
  | .ok verified =>
    match (runExtractors args.requestDetails verified args.platform
        args.eventType args.blockingType args.eventTime h.extractors
        (.obj []) 0).res with
    | .reject => true
    | _ => false
  | _ => false

/-- C10: a request dropped by the pipeline's own filtering (a rejecting
verifier or extractor) makes `handleGenericEvent` return an empty object
with no "cancel" property, so it is never blocked at the network layer;
conversely any returned decision that does contain a cancellation is the
output of the registered blocking listener under a blocking registration. -/
theorem c10_rejection_never_cancels (h : Handler) (cbs : Callbacks)
    (args : HGEArgs) (st : List String) :
    ((verifierStageRejects h args st = true ∨
        extractorStageRejects h args st = true) →
      (handleGenericEvent h cbs args st).result = .ret (.obj []) ∧
      hasFieldE (.obj []) "cancel" = .ok false ∧
      hasCancelB (.obj []) = false) ∧
    (∀ d, (handleGenericEvent h cbs args st).result = .ret d →
      hasCancelB d = true →
      args.blockingType = "blocking" ∧
      ∃ cb details, cbs.blocking.head? = some cb ∧ cb details = .ok d) := by
  rcases hv : runVerifiers args.requestDetails h.verifiers JSValue.null st with
    ⟨vres, vst, vtr⟩
  cases vres with
  | thrown =>
    constructor
    · intro hrej
      rcases hrej with hrej | hrej <;>
        simp [verifierStageRejects, extractorStageRejects, hv] at hrej
    · intro d hd hc
      unfold handleGenericEvent at hd; rw [hv] at hd; simp at hd
  | reject =>
    constructor
    · intro _
      refine ⟨?_, rfl, rfl⟩
      unfold handleGenericEvent; rw [hv]
    · intro d hd hc
      unfold handleGenericEvent at hd; rw [hv] at hd; simp at hd
      rw [← hd] at hc
      exact absurd hc (by decide)
  | ok verified =>
    rcases he : runExtractors args.requestDetails verified args.platform
        args.eventType args.blockingType args.eventTime h.extractors
        (.obj []) 0 with ⟨eres, etr⟩
    cases eres with
    | thrown =>
      constructor
      · intro hrej
        rcases hrej with hrej | hrej <;>
          simp [verifierStageRejects, extractorStageRejects, hv, he] at hrej
      · intro d hd hc
        unfold handleGenericEvent at hd; rw [hv] at hd
        dsimp only at hd; rw [he] at hd; simp at hd
    | reject =>
      constructor
      · intro _
        refine ⟨?_, rfl, rfl⟩
        unfold handleGenericEvent; rw [hv]; dsimp only; rw [he]
      · intro d hd hc
        unfold handleGenericEvent at hd; rw [hv] at hd
        dsimp only at hd; rw [he] at hd; simp at hd
        rw [← hd] at hc
        exact absurd hc (by decide)
    | ok details =>
      constructor
      · intro hrej
        rcases hrej with hrej | hrej <;>
          simp [verifierStageRejects, extractorStageRejects, hv, he] at hrej
      · intro d hd hc
        unfold handleGenericEvent at hd; rw [hv] at hd
        dsimp only at hd; rw [he] at hd
        by_cases hb : args.blockingType = "blocking"
        · rcases hh : cbs.blocking.head? with _ | cb
          · simp [hb, hh] at hd
          · rcases hcb : cb details with e | decision
            · simp [hb, hh, hcb] at hd
            · rcases hcc : (if truthy decision then hasFieldE decision "cancel"
                  else Except.ok false) with e | b
              · simp [hb, hh, hcb, hcc] at hd
              · cases b with
                | true =>
                  simp [hb, hh, hcb, hcc] at hd
                  exact ⟨hb, cb, details, rfl, by rw [hcb, hd]⟩
                | false =>
                  simp [hb, hh, hcb, hcc] at hd
        · simp [hb] at hd

/-- C10 (witness): the comment-shaped vote request is rejected by the
postVote handler's verifier stage, and the pipeline returns a cancel-free
empty object. -/
theorem c10_rejection_never_cancels_witness :
    verifierStageRejects (redditPostVoteHandler sampleEnv) voteArgsPost [] = true ∧
    (handleGenericEvent (redditPostVoteHandler sampleEnv) cbs0 voteArgsPost
      []).result = .ret (.obj []) ∧
    hasFieldE (.obj []) "cancel" = .ok false ∧
    hasCancelB (.obj []) = false :=
  ⟨rfl, ((c10_rejection_never_cancels (redditPostVoteHandler sampleEnv) cbs0
      voteArgsPost []).1 (Or.inl rfl)).1,
    ((c10_rejection_never_cancels (redditPostVoteHandler sampleEnv) cbs0
      voteArgsPost []).1 (Or.inl rfl)).2⟩

/-- C6 (amended): a malformed URL (one the URL parser rejects) yields the
empty-string domain via `getDomain`, and a record carrying it is still
counted: the page-navigation fold counts the visit under the
empty-string domain group and the link-exposure fold under the
empty-string destination-domain group; in the link-sharing fold the
share URL's domain comes from `getHostName` instead, yielding null
(`none`) rather than the empty string, and the share is still counted,
under the null-domain group of its platform. -/
theorem c6_malformed_url_empty_domain
    (u : String) (hu : urlHostname u = none)
    (r : PageNavRecord) (hrt : r.type = "pageVisit") (hru : r.url = u)
    (e : LinkExposureRecord) (het : e.type = "linkExposure") (heu : e.url = u)
    (s : LinkShareRecord) (hst : s.type = "linkShare")
    (hsp : s.platform = "facebook") (hsu : getHostName s.url = none) :
    getDomain u = "" ∧
    lookupVisitCounts (pageNavFold [r]) "" (visitKey r) =
      some ⟨1, r.attentionDuration, if r.laterShared then 1 else 0,
            if r.prevExposed then 1 else 0⟩ ∧
    (exposureKey e).destinationDomain = "" ∧
    lookupA (exposureKey e) (linkExposureFold [e]).linkExposures =
      some ⟨1, if e.laterVisited then 1 else 0⟩ ∧
    (shareKey s).domain = none ∧
    (∃ stats, socialMediaLinkSharingFold [s] = .ok stats ∧
      ∃ po, lookupA "facebook" stats.linkSharesByPlatform = some po ∧
        lookupA (shareKey s) po.trackedShares =
          some ⟨1, if s.prevExposed then 1 else 0⟩) := by
  have hdu : getDomain u = "" := by simp [getDomain, hu]
  refine ⟨hdu, ?_, ?_, ?_, ?_, ?_⟩
  · simp [pageNavFold, pageNavSetup, pageNavCompute, hrt, hru, hdu,
      lookupVisitCounts, updAssoc, lookupA]
  · simp [exposureKey, heu, hdu]
  · simp [linkExposureFold, linkExposureSetup, linkExposureCompute, het,
      updAssoc, lookupA]
  · simp [shareKey, hsu]
  · refine ⟨⟨[("facebook", ⟨[(shareKey s, ⟨1, if s.prevExposed then 1 else 0⟩)], 0⟩),
              ("twitter", ⟨[], 0⟩), ("reddit", ⟨[], 0⟩)]⟩, ?_,
      ⟨[(shareKey s, ⟨1, if s.prevExposed then 1 else 0⟩)], 0⟩, ?_, ?_⟩
    · simp [socialMediaLinkSharingFold, List.foldlM,
        socialMediaLinkSharingCompute, hst, hsp, linkShareSetup, lookupA,
        setAssoc, updAssoc, Bind.bind, Except.bind, pure, Except.pure]
    · simp [lookupA]
    · simp [lookupA]

/-- A page-visit record whose URL is malformed. -/
def pvBad : PageNavRecord := ⟨"pageVisit", "notaurl", "", 0, 7, false, false, "news", 0⟩

/-- A link-exposure record whose destination URL is malformed. -/
def leBad : LinkExposureRecord :=
  ⟨"linkExposure", "https://site.example/", "notaurl", 0, 2, false, []⟩

/-- C6 (witness): the malformed-URL behavior at concrete records. -/
theorem c6_malformed_url_empty_domain_witness :
    urlHostname "notaurl" = none ∧
    getDomain "notaurl" = "" ∧
    lookupVisitCounts (pageNavFold [pvBad]) "" (visitKey pvBad) =
      some ⟨1, 7, 0, 0⟩ ∧
    lookupA (exposureKey leBad) (linkExposureFold [leBad]).linkExposures =
      some ⟨1, 0⟩ ∧
    (shareKey badShare).domain = none := by
  have h := c6_malformed_url_empty_domain "notaurl" rfl pvBad rfl rfl
    leBad rfl rfl badShare rfl rfl rfl
  exact ⟨rfl, h.1, h.2.1, h.2.2.2.1, h.2.2.2.2.1⟩

/-- Lookup after an insertion-ordered map update. -/
theorem lookupA_updAssoc {K V : Type} [DecidableEq K] (k k' : K)
    (f : Option V → V) :
    ∀ m : List (K × V), lookupA k' (updAssoc k f m) =
      if k' = k then some (f (lookupA k m)) else lookupA k' m := by
  intro m
  induction m with
  | nil =>
    by_cases h : k' = k
    · subst h; simp [updAssoc, lookupA]
    · have h2 : ¬ k = k' := fun hh => h hh.symm
      simp [updAssoc, lookupA, h, h2]
  | cons p m ih =>
    obtain ⟨a, b⟩ := p
    by_cases hak : a = k
    · subst hak
      by_cases hk' : a = k'
      · subst hk'
        simp [updAssoc, lookupA]
      · have h2 : ¬ k' = a := fun hh => hk' hh.symm
        simp [updAssoc, lookupA, hk', h2]
    · by_cases hk' : a = k'
      · subst hk'
        simp [updAssoc, lookupA, hak]
      · have h2 : ¬ k' = a := fun hh => hk' hh.symm
        simp [updAssoc, lookupA, hak, hk', ih, h2]

/-- The zero-initialised counters of a fresh group bucket. -/
def zeroCounts : VisitCounts := ⟨0, 0, 0, 0⟩

/-- One record's contribution to its group's counters. -/
def bumpCounts (c : VisitCounts) (r : PageNavRecord) : VisitCounts :=
  ⟨c.numVisits + 1, c.totalAttention + r.attentionDuration,
   c.laterSharedCount + (if r.laterShared then 1 else 0),
   c.prevExposedCount + (if r.prevExposed then 1 else 0)⟩

/-- Whether a record is a page visit falling in the group of domain `d`
and key `k`. -/
def inGroup (d : String) (k : VisitKey) (r : PageNavRecord) : Bool :=
  decide (r.type = "pageVisit") && decide (getDomain r.url = d) &&
  decide (visitKey r = k)

/-- A matching record bumps exactly its own group's counters. -/
theorem pageNavCompute_lookup_match {r : PageNavRecord} {s : PageNavStats}
    {d : String} {k : VisitKey} (h : inGroup d k r = true) :
    lookupVisitCounts (pageNavCompute r s) d k =
      some (bumpCounts ((lookupVisitCounts s d k).getD zeroCounts) r) := by
  have h' : r.type = "pageVisit" ∧ getDomain r.url = d ∧ visitKey r = k := by
    simpa [inGroup, Bool.and_eq_true, and_assoc] using h
  obtain ⟨ht, hd, hk⟩ := h'
  unfold pageNavCompute lookupVisitCounts
  simp only [hd, hk]
  rw [if_pos ht]
  simp only
  rw [lookupA_updAssoc, if_pos rfl]
  cases hdm : lookupA d s.trackedVisitsByDomain with
  | none =>
    simp only [Option.getD_none, Option.none_bind, Option.some_bind]
    rw [lookupA_updAssoc, if_pos rfl]
    simp [lookupA, bumpCounts, zeroCounts]
  | some dObj =>
    simp only [Option.getD_some, Option.some_bind]
    rw [lookupA_updAssoc, if_pos rfl]
    cases hkm : lookupA k dObj.visitsByReferrer with
    | none => simp [bumpCounts, zeroCounts]
    | some c => simp [bumpCounts]

/-- A non-matching record leaves a group's counters unchanged. -/
theorem pageNavCompute_lookup_nomatch {r : PageNavRecord} {s : PageNavStats}
    {d : String} {k : VisitKey} (h : inGroup d k r = false) :
    lookupVisitCounts (pageNavCompute r s) d k = lookupVisitCounts s d k := by
  by_cases ht : r.type = "pageVisit"
  · by_cases hd : getDomain r.url = d
    · by_cases hk : visitKey r = k
      · have htrue : inGroup d k r = true := by simp [inGroup, ht, hd, hk]
        rw [h] at htrue
        exact Bool.noConfusion htrue
      · unfold pageNavCompute lookupVisitCounts
        simp only [hd]
        rw [if_pos ht]
        simp only
        rw [lookupA_updAssoc, if_pos rfl]
        have hkk : ¬ k = visitKey r := fun hh => hk hh.symm
        cases hdm : lookupA d s.trackedVisitsByDomain with
        | none =>
          simp only [Option.getD_none, Option.none_bind, Option.some_bind]
          rw [lookupA_updAssoc, if_neg hkk]
          simp [lookupA]
        | some dObj =>
          simp only [Option.getD_some, Option.some_bind]
          rw [lookupA_updAssoc, if_neg hkk]
    · unfold pageNavCompute lookupVisitCounts
      rw [if_pos ht]
      simp only
      rw [lookupA_updAssoc]
      have hdd : ¬ d = getDomain r.url := fun hh => hd hh.symm
      rw [if_neg hdd]
  · unfold pageNavCompute lookupVisitCounts
    rw [if_neg ht]

/-- The counters a group accrues from a record list, starting from a
given bucket state. -/
def foldCounts (c : Option VisitCounts) (rs : List PageNavRecord) :
    Option VisitCounts :=
  rs.foldl (fun acc r => some (bumpCounts (acc.getD zeroCounts) r)) c

/-- Characterisation of the fold: a group's counters after folding a
record list depend only on the bucket's previous value and the sublist of
records matching the group. -/
theorem pageNav_lookup_char (d : String) (k : VisitKey) :
    ∀ (l : List PageNavRecord) (s : PageNavStats),
    lookupVisitCounts (l.foldl (fun s e => pageNavCompute e s) s) d k =
      foldCounts (lookupVisitCounts s d k) (l.filter (inGroup d k)) := by
  intro l
  induction l with
  | nil => intro s; rfl
  | cons r l ih =>
    intro s
    cases hr : inGroup d k r with
    | true =>
      simp only [List.foldl_cons, List.filter_cons, hr, if_pos rfl]
      rw [ih (pageNavCompute r s)]
      rw [pageNavCompute_lookup_match hr]
      rfl
    | false =>
      simp only [List.foldl_cons, List.filter_cons, hr, Bool.false_eq_true,
        if_false]
      rw [ih (pageNavCompute r s)]
      rw [pageNavCompute_lookup_nomatch hr]

/-- The per-group totals of a record list. -/
def groupTotals (rs : List PageNavRecord) : VisitCounts :=
  ⟨rs.length, (rs.map (fun r => r.attentionDuration)).sum,
   rs.countP (fun r => r.laterShared),
   rs.countP (fun r => r.prevExposed)⟩

/-- Componentwise sum of counters. -/
def addCounts (a b : VisitCounts) : VisitCounts :=
  ⟨a.numVisits + b.numVisits, a.totalAttention + b.totalAttention,
   a.laterSharedCount + b.laterSharedCount,
   a.prevExposedCount + b.prevExposedCount⟩

/-- Closed form of `foldCounts`: a nonempty matching list contributes its
totals on top of the previous bucket value. -/
theorem foldCounts_closed :
    ∀ (rs : List PageNavRecord) (c : Option VisitCounts), rs ≠ [] →
    foldCounts c rs = some (addCounts (c.getD zeroCounts) (groupTotals rs)) := by
  intro rs
  induction rs with
  | nil => intro c h; exact absurd rfl h
  | cons r rs ih =>
    intro c _
    cases rs with
    | nil =>
      simp [foldCounts, groupTotals, addCounts, bumpCounts, List.countP,
        List.countP.go]
    | cons r2 rs2 =>
      have step : foldCounts c (r :: r2 :: rs2) =
          foldCounts (some (bumpCounts (c.getD zeroCounts) r)) (r2 :: rs2) := rfl
      rw [step, ih (some (bumpCounts (c.getD zeroCounts) r)) (by simp)]
      simp only [Option.getD_some, Option.some.injEq]
      simp [groupTotals, addCounts, bumpCounts, List.countP_cons]
      refine ⟨by omega, by ring, by split_ifs <;> omega, by split_ifs <;> omega⟩

/-- C3 (amended): the tracked per-group counts of the page-navigation
reducer are order-independent — any two permutations of the record set
yield fold states with identical counters in every (domain, key) group.
Full identity of the flattened aggregate fails (see the order-dependence
counterexample): the untracked-visit counter is last-write-wins and the
flattened arrays follow insertion order. -/
theorem c3_group_counts_perm_invariant (l1 l2 : List PageNavRecord)
    (hp : l1.Perm l2) (d : String) (k : VisitKey) :
    lookupVisitCounts (pageNavFold l1) d k =
      lookupVisitCounts (pageNavFold l2) d k := by
  unfold pageNavFold
  rw [pageNav_lookup_char d k l1 pageNavSetup,
    pageNav_lookup_char d k l2 pageNavSetup]
  have hps : (l1.filter (inGroup d k)).Perm (l2.filter (inGroup d k)) :=
    hp.filter _
  have hsetup : lookupVisitCounts pageNavSetup d k = none := rfl
  rw [hsetup]
  by_cases hemp : l1.filter (inGroup d k) = []
  · have h2 : l2.filter (inGroup d k) = [] := by
      rw [hemp] at hps
      exact hps.symm.eq_nil
    rw [hemp, h2]
  · have h2 : l2.filter (inGroup d k) ≠ [] := by
      intro hnil
      apply hemp
      rw [hnil] at hps
      exact hps.eq_nil
    rw [foldCounts_closed _ none hemp, foldCounts_closed _ none h2]
    have htot : groupTotals (l1.filter (inGroup d k)) =
        groupTotals (l2.filter (inGroup d k)) := by
      unfold groupTotals
      rw [hps.length_eq, (hps.map (fun r => r.attentionDuration)).sum_eq,
        hps.countP_eq, hps.countP_eq]
    rw [htot]

/-- C3 (witness): two concrete page visits in both orders yield the same
counts in the first record's group. -/
theorem c3_group_counts_perm_invariant_witness :
    List.Perm [pvA, pvB] [pvB, pvA] ∧
    lookupVisitCounts (pageNavFold [pvA, pvB]) (getDomain pvA.url)
        (visitKey pvA) =
      lookupVisitCounts (pageNavFold [pvB, pvA]) (getDomain pvA.url)
        (visitKey pvA) :=
  ⟨List.Perm.swap pvB pvA [],
   c3_group_counts_perm_invariant [pvA, pvB] [pvB, pvA]
     (List.Perm.swap pvB pvA []) (getDomain pvA.url) (visitKey pvA)⟩

/-- Closing-quote characterisation of `parseStrBody`: a quote- and
backslash-free character run followed by a closing quote parses as exactly
that run. -/
theorem parseStrBody_append (cs : List Char) (rest : List Char)
    (h : ∀ c ∈ cs, c ≠ '"' ∧ c ≠ '\\') :
    parseStrBody (cs ++ '"' :: rest) = some (String.mk cs, rest) := by
  induction cs with
  | nil => rfl
  | cons c cs ih =>
    have hc := h c (List.mem_cons_self c cs)
    have ih' := ih (fun x hx => h x (List.mem_cons_of_mem c hx))
    simp [parseStrBody, hc.1, hc.2, ih']

/-- Parsing the react `variables` JSON text yields the two-field payload,
for any quote- and backslash-free feedback id and any sufficient fuel. -/
theorem parse_vars (fid : String) (h : ∀ c ∈ fid.data, c ≠ '"' ∧ c ≠ '\\') :
    ∀ m : Nat, parseJsonVal (m + 6) (varsStr fid).data =
      some (reactionPayload fid, []) := by
  intro m
  have hdata : (varsStr fid).data =
      ('\x7b' :: '"' :: 'i' :: 'n' :: 'p' :: 'u' :: 't' :: '"' :: ':' :: '\x7b' ::
       '"' :: 'f' :: 'e' :: 'e' :: 'd' :: 'b' :: 'a' :: 'c' :: 'k' :: '_' ::
       'i' :: 'd' :: '"' :: ':' :: '"' :: []) ++ fid.data ++
      ('"' :: ',' :: '"' :: 'f' :: 'e' :: 'e' :: 'd' :: 'b' :: 'a' :: 'c' ::
       'k' :: '_' :: 'r' :: 'e' :: 'a' :: 'c' :: 't' :: 'i' :: 'o' :: 'n' ::
       '"' :: ':' :: '2' :: '\x7d' :: '\x7d' :: []) := by
    simp [varsStr]
  have hstr : parseStrBody (fid.data ++ '"' :: (',' :: '"' :: 'f' :: 'e' :: 'e' :: 'd' :: 'b' :: 'a' :: 'c' ::
       'k' :: '_' :: 'r' :: 'e' :: 'a' :: 'c' :: 't' :: 'i' :: 'o' :: 'n' ::
       '"' :: ':' :: '2' :: '\x7d' :: '\x7d' :: [])) =
      some (fid, (',' :: '"' :: 'f' :: 'e' :: 'e' :: 'd' :: 'b' :: 'a' :: 'c' ::
       'k' :: '_' :: 'r' :: 'e' :: 'a' :: 'c' :: 't' :: 'i' :: 'o' :: 'n' ::
       '"' :: ':' :: '2' :: '\x7d' :: '\x7d' :: [])) := by
    have hs := parseStrBody_append fid.data (',' :: '"' :: 'f' :: 'e' :: 'e' :: 'd' :: 'b' :: 'a' :: 'c' ::
       'k' :: '_' :: 'r' :: 'e' :: 'a' :: 'c' :: 't' :: 'i' :: 'o' :: 'n' ::
       '"' :: ':' :: '2' :: '\x7d' :: '\x7d' :: []) h
    simpa using hs
  rw [hdata]
  simp only [List.cons_append, List.nil_append]
  simp [parseJsonVal, parseObjBody, parseStrBody, parseDigits, List.dropWhile, jsonWs, hstr,
    reactionPayload, List.takeWhile]

/-- `JSON.parse` applied to the one-element `variables` form-data array
coerces it to the JSON text and yields the parsed payload. -/
theorem jsonParse_vars (fid : String) (h : ∀ c ∈ fid.data, c ≠ '"' ∧ c ≠ '\\') :
    jsonParseJS (JSValue.arr [JSValue.str (varsStr fid)]) =
      Except.ok (reactionPayload fid) := by
  have hlen : (varsStr fid).data.length + 1 = (fid.data.length + 45) + 6 := by
    have hl : (varsStr fid).data.length = fid.data.length + 50 := by
      simp [varsStr]
    omega
  have hmain : parseJsonVal ((varsStr fid).data.length + 1) (varsStr fid).data =
      some (reactionPayload fid, []) := by
    rw [hlen]
    exact parse_vars fid h (fid.data.length + 45)
  show (match parseJsonVal ((varsStr fid).data.length + 1) (varsStr fid).data with
        | some (j, rest) =>
          if (rest.dropWhile jsonWs).isEmpty then Except.ok j else Except.error ()
        | none => Except.error ()) = Except.ok (reactionPayload fid)
  rw [hmain]
  rfl

/-- C8 (counterexample): the claim quantifies over friendly names that
*contain* "UFI2FeedbackReactMutation", but `findFieldFacebook` returns the
form-data *array* holding the friendly name (its JSON parse fails), and
`Array.prototype.includes` tests exact membership, not substrings — so a
friendly name that strictly contains the mutation name is rejected: the
verifier returns null, which the pipeline treats as rejection. -/
theorem c8_substring_rejected :
    strIncludes "XUFI2FeedbackReactMutationY" "UFI2FeedbackReactMutation" = true ∧
    verifyFacebookReact reactReqX = Except.ok JSValue.null ∧
    truthy JSValue.null = false :=
  ⟨rfl, rfl, rfl⟩

/-- C8 (amended): for a react request whose form-data friendly-name array
holds exactly the string "UFI2FeedbackReactMutation" and whose `variables`
payload is the JSON text for a feedback id (quote- and backslash-free, and
not itself parseable as JSON) with `feedback_reaction` 2, the react
verifier accepts with the parsed payload as context — a truthy value, so
the pipeline proceeds — and the react extractor produces an event whose
`reactionType` is "love". -/
theorem c8_react_love (fid : String)
    (hq : ∀ c ∈ fid.data, c ≠ '"' ∧ c ≠ '\\')
    (hj : jsonParseJS (JSValue.str fid) = Except.error ()) :
    verifyFacebookReact (reactReqOf fid) =
      Except.ok (JSValue.obj [("reactionRequest", reactionPayload fid)]) ∧
    truthy (JSValue.obj [("reactionRequest", reactionPayload fid)]) = true ∧
    extractFacebookReact ⟨reactReqOf fid, JSValue.obj [],
        JSValue.obj [("reactionRequest", reactionPayload fid)],
        "facebook", "react", "nonblocking", 9⟩ =
      Except.ok (JSValue.obj [("eventType", JSValue.str "react"),
        ("eventTime", JSValue.num 9), ("postId", JSValue.null),
        ("groupId", JSValue.null), ("ownerId", JSValue.null),
        ("reactionType", JSValue.str "love")]) := by
  have hp := jsonParse_vars fid hq
  refine ⟨?_, rfl, ?_⟩
  · show Except.ok (JSValue.obj [("reactionRequest",
        (match jsonParseJS (JSValue.arr [JSValue.str (varsStr fid)]) with
         | Except.ok parsed => parsed
         | Except.error _ => JSValue.arr [JSValue.str (varsStr fid)]))]) =
      Except.ok (JSValue.obj [("reactionRequest", reactionPayload fid)])
    rw [hp]
  · have h3 : findFieldFacebook (JSValue.str fid) "tracking" true 3 = JSValue.null := by
      show (match jsonParseJS (JSValue.str fid) with
            | Except.ok parsed => findFieldFacebook parsed "tracking" true 2
            | Except.error _ => JSValue.null) = JSValue.null
      rw [hj]
    have htrack : findFieldFacebook (reactionPayload fid) "tracking" = JSValue.null := by
      show (if jsLooseEq (findFieldFacebook (JSValue.str fid) "tracking" true 3) JSValue.null
            then findFieldFacebook (JSValue.num 2) "tracking" true 3
            else findFieldFacebook (JSValue.str fid) "tracking" true 3) = JSValue.null
      rw [h3]
      rfl
    show Except.ok (JSValue.obj [("eventType", JSValue.str "react"),
        ("eventTime", JSValue.num 9),
        ("postId", findFieldFacebook (findFieldFacebook (reactionPayload fid) "tracking") "top_level_post_id"),
        ("groupId", findFieldFacebook (findFieldFacebook (reactionPayload fid) "tracking") "group_id"),
        ("ownerId", findFieldFacebook (findFieldFacebook (reactionPayload fid) "tracking") "content_owner_id_new"),
        ("reactionType", JSValue.str "love")]) =
      Except.ok (JSValue.obj [("eventType", JSValue.str "react"),
        ("eventTime", JSValue.num 9), ("postId", JSValue.null),
        ("groupId", JSValue.null), ("ownerId", JSValue.null),
        ("reactionType", JSValue.str "love")])
    rw [htrack]
    rfl

/-- C8 (witness): the amended theorem at the concrete feedback id "fid". -/
theorem c8_react_love_witness :
    verifyFacebookReact (reactReqOf "fid") =
      Except.ok (JSValue.obj [("reactionRequest", reactionPayload "fid")]) ∧
    truthy (JSValue.obj [("reactionRequest", reactionPayload "fid")]) = true ∧
    extractFacebookReact ⟨reactReqOf "fid", JSValue.obj [],
        JSValue.obj [("reactionRequest", reactionPayload "fid")],
        "facebook", "react", "nonblocking", 9⟩ =
      Except.ok (JSValue.obj [("eventType", JSValue.str "react"),
        ("eventTime", JSValue.num 9), ("postId", JSValue.null),
        ("groupId", JSValue.null), ("ownerId", JSValue.null),
        ("reactionType", JSValue.str "love")]) :=
  c8_react_love "fid" (by decide) rfl
